import Mathlib

/-!
Verification development for the AFS metrics collector.

This file gives a shallow embedding, in Lean, of the parts of the collector
that its specification makes claims about:

* the exception taxonomy of `src/exceptions.py` (error categories, the
  `retryable` flag and the `retry_after` hint, and the keyword-defaulting
  logic of `APIError.__init__` / `create_api_error`);
* the retry engine of `src/retry_handler.py` (`RetryConfig`,
  `CircuitBreaker.can_execute` / `record_success` / `record_failure`,
  `RetryHandler.should_retry` / `calculate_delay` / `execute_with_retry`);
* the transformation layer of `src/metrics_transformer.py`
  (`_sanitize_labels`, `_create_usage_metrics`, `format_prometheus_metrics`,
  `_format_metric_line`);
* the orchestration layer of `src/metrics_handler.py`
  (`_create_volume_status_metrics`, `_fetch_all_volumes`, `collect_metrics`,
  `_create_error_metrics`, `_create_collection_metadata`).

Python floats are modelled as exact rationals (`ℚ`), Python ints as `Int` or
`Nat`, Python strings as `String` (with some helpers working on `List Char`).
Wall-clock reads (`time.time()`) are passed in explicitly; the random jitter
draw `random.uniform(-r, r)` is passed in as a normalized factor `j ∈ [-1, 1]`
with the drawn value being `r * j`.  Logging calls are pure side effects with
no data flow into any result and are omitted.
-/

namespace AfsCollector

/-! ## Error model (`src/exceptions.py`) -/

/-- Error categories, from the `ErrorCategory` enum of `exceptions.py`. -/
inductive ErrorCategory
  | authentication
  | network
  | api
  | configuration
  | dataProcessing
  | server
  | timeout
  | rateLimit
deriving DecidableEq, Repr

/-- The attributes of an `AFSCollectorError` instance that the retry and
collection logic reads: its category, the `retryable` flag, the `retry_after`
hint, and the two context-dictionary keys the code writes
(`context['status_code']`, `context['retry_after']`).  From
`AFSCollectorError.__init__` in `exceptions.py`. -/
structure AFSErrorInfo where
  category : ErrorCategory
  retryable : Bool
  retryAfter : Option Int
  ctxStatusCode : Option Int
  ctxRetryAfter : Option Int
deriving DecidableEq, Repr

/-- Embeds `APIError.__init__` (exceptions.py lines 114-134).  A `none`
keyword argument means the caller did not pass that keyword, so Python's
`kwargs.setdefault` picks the default.  `statusCode = none` models
`status_code=None` (falsy), and a status code of `0` is also falsy. -/
def apiErrorInit (statusCode : Option Int) (retryableKw : Option Bool)
    (retryAfterKw : Option Int) (ctxRetryAfter : Option Int) : AFSErrorInfo :=
  match statusCode with
  | some sc =>
    if sc ≠ 0 then
      { category := if sc = 429 then ErrorCategory.rateLimit else ErrorCategory.api
        retryable := retryableKw.getD (decide (sc ≥ 500 ∨ sc = 429))
        retryAfter :=
          if sc = 429 then some (retryAfterKw.getD 60)
          else if sc ≥ 500 then some (retryAfterKw.getD 5)
          else retryAfterKw
        ctxStatusCode := some sc
        ctxRetryAfter := ctxRetryAfter }
    else
      { category := ErrorCategory.api
        retryable := retryableKw.getD false
        retryAfter := retryAfterKw
        ctxStatusCode := some sc
        ctxRetryAfter := ctxRetryAfter }
  | none =>
      { category := ErrorCategory.api
        retryable := retryableKw.getD false
        retryAfter := retryAfterKw
        ctxStatusCode := none
        ctxRetryAfter := ctxRetryAfter }

/-- Embeds `create_api_error(status_code, response_text, context)`
(exceptions.py lines 251-261): it constructs
`APIError(message, status_code=status_code, context=context)` and passes no
`retryable` and no `retry_after` keyword.  Only the `retry_after` key of the
context dictionary is tracked. -/
def createApiError (statusCode : Int) (ctxRetryAfter : Option Int) : AFSErrorInfo :=
  apiErrorInit (some statusCode) none none ctxRetryAfter

/-- Embeds the HTTP 429 branch of `AFSClient._get_volume_quotas_single_attempt`
(afs_client.py lines 289-293): it reads the Retry-After header (defaulting to
60) and raises `create_api_error(429, "Rate limit exceeded",
{'retry_after': retry_after})` — the header value is passed as the *context*
argument, not as the `retry_after` keyword. -/
def rateLimitResponseError (retryAfterHeader : Option Int) : AFSErrorInfo :=
  createApiError 429 (some (retryAfterHeader.getD 60))

/-! ## Retry configuration and delay computation (`src/retry_handler.py`) -/

/-- Embeds the `RetryConfig` dataclass (retry_handler.py lines 27-40). -/
structure RetryConfig where
  maxAttempts : Nat
  baseDelay : ℚ
  maxDelay : ℚ
  exponentialBase : ℚ
  jitter : Bool
  backoffMultiplier : ℚ
  failureThreshold : Nat
  recoveryTimeout : ℚ
  halfOpenMaxCalls : Nat
deriving DecidableEq, Repr

/-- An exception as classified by `RetryHandler.should_retry`: a domain
`AFSCollectorError` carrying its attributes, a builtin `ConnectionError` or
`TimeoutError`, or any other exception. -/
inductive PyError
  | afs (info : AFSErrorInfo)
  | connectionOrTimeout
  | other
deriving DecidableEq, Repr

/-- Embeds `RetryHandler.should_retry` (retry_handler.py lines 186-211). -/
def shouldRetry (cfg : RetryConfig) (e : PyError) (attempt : Nat) : Bool :=
  if attempt ≥ cfg.maxAttempts then false
  else
    match e with
    | .afs i => i.retryable
    | .connectionOrTimeout => true
    | .other => false

/-- The base delay selected by `RetryHandler.calculate_delay`
(retry_handler.py lines 224-228): `if isinstance(error, AFSCollectorError)
and error.retry_after:` — Python truthiness, so a `retry_after` of `None`
*or of `0`* falls back to the policy's `base_delay`. -/
def baseDelayFor (cfg : RetryConfig) (e : Option PyError) : ℚ :=
  match e with
  | some (.afs i) =>
    match i.retryAfter with
    | some r => if r = 0 then cfg.baseDelay else (r : ℚ)
    | none => cfg.baseDelay
  | _ => cfg.baseDelay

/-- The exponential-backoff value of `RetryHandler.calculate_delay` before
jitter and capping (retry_handler.py lines 230-232):
`base_delay * exponential_base ** (attempt - 1) * backoff_multiplier`. -/
def rawDelay (cfg : RetryConfig) (attempt : Nat) (e : Option PyError) : ℚ :=
  baseDelayFor cfg e * cfg.exponentialBase ^ (attempt - 1) * cfg.backoffMultiplier

/-- Embeds `RetryHandler.calculate_delay` (retry_handler.py lines 213-242):
jitter is added to the uncapped exponential value, then the result is capped
at `max_delay` and clamped at zero.  The normalized jitter draw `j ∈ [-1, 1]`
stands for the random factor: `random.uniform(-r, r) = r * j` with
`r = delay * 0.1`. -/
def calculateDelay (cfg : RetryConfig) (attempt : Nat) (e : Option PyError) (j : ℚ) : ℚ :=
  max 0 (min
    (if cfg.jitter then
      rawDelay cfg attempt e + rawDelay cfg attempt e * (1 / 10) * j
     else rawDelay cfg attempt e)
    cfg.maxDelay)

/-- Modelled from the spec, for comparison with `calculateDelay` (claim C4):
with jitter disabled the claim says the delay is
`min(max_delay, b * exponential_base ^ (attempt - 1) * backoff_multiplier)`
(clamped at zero), where `b` is the error's `retry_after` hint *whenever the
hint is present*, and the policy's `base_delay` otherwise. -/
def claimedHint (cfg : RetryConfig) (e : Option PyError) : ℚ :=
  match e with
  | some (.afs i) =>
    match i.retryAfter with
    | some r => (r : ℚ)
    | none => cfg.baseDelay
  | _ => cfg.baseDelay

/-- Modelled from the spec, for comparison with `calculateDelay` (claim C4,
continued): the claimed delay formula itself. -/
def claimedDelayNoJitter (cfg : RetryConfig) (attempt : Nat) (e : Option PyError) : ℚ :=
  max 0 (min (claimedHint cfg e * cfg.exponentialBase ^ (attempt - 1) *
    cfg.backoffMultiplier) cfg.maxDelay)

/-- A retry configuration with jitter disabled, used as concrete input. -/
def cfgNoJitter : RetryConfig :=
  { maxAttempts := 3, baseDelay := 1, maxDelay := 60, exponentialBase := 2
    jitter := false, backoffMultiplier := 1, failureThreshold := 5
    recoveryTimeout := 60, halfOpenMaxCalls := 3 }

/-- A domain error carrying the (falsy) retry hint `retry_after = 0`. -/
def zeroHintError : PyError :=
  .afs { category := ErrorCategory.rateLimit, retryable := true
         retryAfter := some 0, ctxStatusCode := none, ctxRetryAfter := none }

/-- Claim C4 (counterexample): with jitter disabled, a `retry_after` hint of
`0` is present, so the claimed delay uses `b = 0` and is `0`; but the code
treats a zero hint as absent (Python truthiness) and uses `base_delay = 1`,
returning `1`. -/
theorem calculateDelay_zero_hint_counterexample :
    calculateDelay cfgNoJitter 1 (some zeroHintError) 0 = 1 ∧
    claimedDelayNoJitter cfgNoJitter 1 (some zeroHintError) = 0 ∧
    (1 : ℚ) ≠ 0 := by
  refine ⟨?_, ?_, by norm_num⟩ <;>
    norm_num [calculateDelay, rawDelay, claimedDelayNoJitter, claimedHint,
      baseDelayFor, cfgNoJitter, zeroHintError]

/-- Arithmetic core of the jitter representation argument: a ±10% jitter
applied to `u` before capping at `M ≥ 0` always yields a value expressible as
a ±10% jitter applied to the capped value `min u M`, capped and clamped the
same way. -/
theorem jitter_repr (u M j : ℚ) (hM : 0 ≤ M) (hj1 : -1 ≤ j) (hj2 : j ≤ 1) :
    ∃ k, -1 ≤ k ∧ k ≤ 1 ∧
      max 0 (min (u + u * (1 / 10) * j) M) =
        max 0 (min (min u M + min u M * (1 / 10) * k) M) := by
  by_cases hcap : u ≤ M
  · exact ⟨j, hj1, hj2, by rw [min_eq_left hcap]⟩
  · push_neg at hcap
    have hupos : 0 < u := lt_of_le_of_lt hM hcap
    rw [min_eq_right hcap.le]
    have hvlb : u * (9 / 10) ≤ u + u * (1 / 10) * j := by nlinarith
    by_cases hvM : M ≤ u + u * (1 / 10) * j
    · refine ⟨1, by norm_num, le_refl 1, ?_⟩
      rw [min_eq_right hvM, min_eq_right (by nlinarith : M ≤ M + M * (1 / 10) * 1)]
    · push_neg at hvM
      have hMpos : 0 < M := by nlinarith
      refine ⟨(u + u * (1 / 10) * j - M) * 10 / M, ?_, ?_, ?_⟩
      · rw [le_div_iff₀ hMpos]; nlinarith
      · rw [div_le_iff₀ hMpos]; nlinarith
      · have harith : M + M * (1 / 10) * ((u + u * (1 / 10) * j - M) * 10 / M) =
            u + u * (1 / 10) * j := by
          field_simp
          ring
        rw [harith, min_eq_left hvM.le]

/-- Claim C4 (amended): for every attempt `n`, error `e`, nonnegative
`max_delay` and jitter draw `j ∈ [-1, 1]`, with `u` the uncapped exponential
value `b * exponential_base ^ (n - 1) * backoff_multiplier` — where `b` is the
error's `retry_after` hint when present *and nonzero* (a zero hint is ignored
by Python truthiness) and the policy's `base_delay` otherwise — and
`c = min u max_delay` the capped value: with jitter disabled the returned
delay is exactly `c` clamped at zero; with jitter enabled the returned delay
equals the capped value `c` with some symmetric jitter of at most ±10%
applied, clamped to `[0, max_delay]` (the code applies its jitter draw to the
pre-cap value, but the result is always expressible this way); and in both
cases the final delay is never negative and never exceeds `max_delay`. -/
theorem calculateDelay_spec (cfg : RetryConfig) (attempt : Nat) (e : Option PyError)
    (j : ℚ) (hM : 0 ≤ cfg.maxDelay) (hj1 : -1 ≤ j) (hj2 : j ≤ 1) :
    (cfg.jitter = false →
      calculateDelay cfg attempt e j =
        max 0 (min (rawDelay cfg attempt e) cfg.maxDelay)) ∧
    (cfg.jitter = true →
      ∃ k, -1 ≤ k ∧ k ≤ 1 ∧
        calculateDelay cfg attempt e j =
          max 0 (min
            (min (rawDelay cfg attempt e) cfg.maxDelay +
             min (rawDelay cfg attempt e) cfg.maxDelay * (1 / 10) * k)
            cfg.maxDelay)) ∧
    0 ≤ calculateDelay cfg attempt e j ∧
    calculateDelay cfg attempt e j ≤ cfg.maxDelay := by
  have hbounds : 0 ≤ calculateDelay cfg attempt e j ∧
      calculateDelay cfg attempt e j ≤ cfg.maxDelay := by
    unfold calculateDelay
    exact ⟨le_max_left 0 _, max_le hM (min_le_right _ _)⟩
  refine ⟨?_, ?_, hbounds.1, hbounds.2⟩
  · intro hjit
    unfold calculateDelay
    rw [hjit]
    simp
  · intro hjit
    unfold calculateDelay
    rw [hjit]
    simp only [if_true]
    exact jitter_repr (rawDelay cfg attempt e) cfg.maxDelay j hM hj1 hj2

/-- Witness for claim C4: the amended statement instantiated at a concrete
jittered configuration, attempt 2, jitter draw `j = 1`. -/
theorem calculateDelay_spec_witness :
    0 ≤ (60 : ℚ) ∧
    0 ≤ calculateDelay { cfgNoJitter with jitter := true } 2 none 1 ∧
    calculateDelay { cfgNoJitter with jitter := true } 2 none 1 ≤ 60 := by
  have h := calculateDelay_spec { cfgNoJitter with jitter := true } 2 none 1
    (by norm_num [cfgNoJitter]) (by norm_num) (by norm_num)
  exact ⟨by norm_num, h.2.2.1, h.2.2.2⟩

/-- Claim C6 (counterexample): the claim quantifies over *every* retry
configuration with jitter disabled, but nothing in the code constrains
`exponential_base`; with `exponential_base = 1/2` the delay strictly
*decreases* from attempt 1 to attempt 2 while staying below `max_delay`. -/
theorem backoff_monotonicity_counterexample :
    calculateDelay { cfgNoJitter with exponentialBase := 1 / 2 } 2 none 0 <
      calculateDelay { cfgNoJitter with exponentialBase := 1 / 2 } 1 none 0 ∧
    calculateDelay { cfgNoJitter with exponentialBase := 1 / 2 } 2 none 0 <
      ({ cfgNoJitter with exponentialBase := 1 / 2 } : RetryConfig).maxDelay := by
  norm_num [calculateDelay, rawDelay, baseDelayFor, cfgNoJitter]

/-- Claim C6 (amended): with jitter disabled, a nonnegative base delay (for
the given error), `exponential_base ≥ 1`, nonnegative `backoff_multiplier`
and nonnegative `max_delay`, the computed delay is monotonically
non-decreasing in the attempt number and never exceeds `max_delay`. -/
theorem calculateDelay_monotone (cfg : RetryConfig) (e : Option PyError) (j : ℚ)
    (attempt : Nat) (hjit : cfg.jitter = false) (h1 : 1 ≤ attempt)
    (hb : 0 ≤ baseDelayFor cfg e) (heb : 1 ≤ cfg.exponentialBase)
    (hm : 0 ≤ cfg.backoffMultiplier) (hM : 0 ≤ cfg.maxDelay) :
    calculateDelay cfg attempt e j ≤ calculateDelay cfg (attempt + 1) e j ∧
    calculateDelay cfg attempt e j ≤ cfg.maxDelay := by
  unfold calculateDelay
  rw [hjit]
  simp only [if_false, Bool.false_eq_true]
  constructor
  · have hpow : cfg.exponentialBase ^ (attempt - 1) ≤
        cfg.exponentialBase ^ (attempt + 1 - 1) := by
      apply pow_le_pow_right₀ heb
      omega
    have hmul : rawDelay cfg attempt e ≤ rawDelay cfg (attempt + 1) e := by
      unfold rawDelay
      have h1 : baseDelayFor cfg e * cfg.exponentialBase ^ (attempt - 1) ≤
          baseDelayFor cfg e * cfg.exponentialBase ^ (attempt + 1 - 1) :=
        mul_le_mul_of_nonneg_left hpow hb
      exact mul_le_mul_of_nonneg_right h1 hm
    exact max_le_max (le_refl 0) (min_le_min hmul (le_refl _))
  · exact max_le hM (min_le_right _ _)

/-- Witness for claim C6: the amended monotonicity statement at the default
configuration (base 2, no jitter), attempts 1 and 2. -/
theorem calculateDelay_monotone_witness :
    calculateDelay cfgNoJitter 1 none 0 ≤ calculateDelay cfgNoJitter 2 none 0 ∧
    calculateDelay cfgNoJitter 1 none 0 ≤ cfgNoJitter.maxDelay := by
  exact calculateDelay_monotone cfgNoJitter none 0 1 rfl (le_refl 1)
    (by norm_num [baseDelayFor, cfgNoJitter]) (by norm_num [cfgNoJitter])
    (by norm_num [cfgNoJitter]) (by norm_num [cfgNoJitter])

/-- Claim C5: evaluating the embedded 429 handler at a response carrying
header `Retry-After: 120`.  The raised error is rate-limit-category and
retryable, but its `retry_after` attribute — the value
`RetryHandler.calculate_delay` consumes — is the default `60`, not the
server-suggested `120`; the header value only reaches the context
dictionary, which the retry executor never reads. -/
theorem rateLimit429_retry_after_divergence :
    (rateLimitResponseError (some 120)).category = ErrorCategory.rateLimit ∧
    (rateLimitResponseError (some 120)).retryable = true ∧
    (rateLimitResponseError (some 120)).retryAfter = some 60 ∧
    (rateLimitResponseError (some 120)).ctxRetryAfter = some 120 ∧
    baseDelayFor cfgNoJitter
      (some (.afs (rateLimitResponseError (some 120)))) = 60 := by
  refine ⟨rfl, by decide, by decide, rfl, ?_⟩
  norm_num [baseDelayFor, rateLimitResponseError, createApiError, apiErrorInit]

/-! ## Circuit breaker (`src/retry_handler.py`, class `CircuitBreaker`) -/

/-- Circuit breaker states, from the `CircuitState` enum.  The Python name
`OPEN` is rendered `opened` because `open` is a Lean keyword. -/
inductive CircuitState
  | closed
  | opened
  | halfOpen
deriving DecidableEq, Repr

/-- The mutable fields of a `CircuitBreaker` instance
(retry_handler.py lines 79-84). -/
structure CircuitBreaker where
  state : CircuitState
  failureCount : Nat
  lastFailureTime : ℚ
  halfOpenCalls : Nat
deriving DecidableEq, Repr

/-- A freshly constructed breaker: CLOSED, no failures,
`last_failure_time = 0.0`. -/
def CircuitBreaker.initial : CircuitBreaker :=
  { state := .closed, failureCount := 0, lastFailureTime := 0, halfOpenCalls := 0 }

/-- Embeds `CircuitBreaker.can_execute` (retry_handler.py lines 88-112) with
the `time.time()` read passed in as `t`.  Returns the boolean answer and the
possibly updated breaker: the lazy OPEN → HALF_OPEN transition (with its
probe-counter reset) is the method's only mutation. -/
def canExecute (cfg : RetryConfig) (t : ℚ) (b : CircuitBreaker) :
    Bool × CircuitBreaker :=
  match b.state with
  | .closed => (true, b)
  | .opened =>
    if t - b.lastFailureTime ≥ cfg.recoveryTimeout then
      (true, { b with state := .halfOpen, halfOpenCalls := 0 })
    else (false, b)
  | .halfOpen => (decide (b.halfOpenCalls < cfg.halfOpenMaxCalls), b)

/-- Embeds `CircuitBreaker.record_success` (retry_handler.py lines 114-124).
In CLOSED the failure count is decremented with floor 0 (Nat subtraction);
in HALF_OPEN the probe counter is incremented and, on reaching
`half_open_max_calls`, the breaker closes and resets the failure count. -/
def recordSuccess (cfg : RetryConfig) (b : CircuitBreaker) : CircuitBreaker :=
  match b.state with
  | .halfOpen =>
    if b.halfOpenCalls + 1 ≥ cfg.halfOpenMaxCalls then
      { state := .closed, failureCount := 0, lastFailureTime := b.lastFailureTime
        halfOpenCalls := b.halfOpenCalls + 1 }
    else { b with halfOpenCalls := b.halfOpenCalls + 1 }
  | .closed => { b with failureCount := b.failureCount - 1 }
  | .opened => b

/-- Embeds `CircuitBreaker.record_failure` (retry_handler.py lines 126-137)
with the `time.time()` read passed in as `t`. -/
def recordFailure (cfg : RetryConfig) (t : ℚ) (b : CircuitBreaker) : CircuitBreaker :=
  match b.state with
  | .halfOpen =>
    { state := .opened, failureCount := b.failureCount + 1, lastFailureTime := t
      halfOpenCalls := b.halfOpenCalls }
  | .closed =>
    if b.failureCount + 1 ≥ cfg.failureThreshold then
      { state := .opened, failureCount := b.failureCount + 1, lastFailureTime := t
        halfOpenCalls := b.halfOpenCalls }
    else
      { state := .closed, failureCount := b.failureCount + 1, lastFailureTime := t
        halfOpenCalls := b.halfOpenCalls }
  | .opened =>
    { state := .opened, failureCount := b.failureCount + 1, lastFailureTime := t
      halfOpenCalls := b.halfOpenCalls }

/-- One operation applied to a breaker: a `can_execute` check, a recorded
success, or a recorded failure. -/
inductive BreakerOp
  | check
  | success
  | failure
deriving DecidableEq, Repr

/-- Applies one timed operation to a breaker. -/
def applyOp (cfg : RetryConfig) (op : BreakerOp) (t : ℚ) (b : CircuitBreaker) :
    CircuitBreaker :=
  match op with
  | .check => (canExecute cfg t b).2
  | .success => recordSuccess cfg b
  | .failure => recordFailure cfg t b

/-- Reachability of a breaker at a current time `t`: the breaker was freshly
constructed and then some sequence of `can_execute` / `record_success` /
`record_failure` operations was applied at nondecreasing wall-clock times,
after which time may have advanced further. -/
inductive Reaches (cfg : RetryConfig) : CircuitBreaker → ℚ → Prop
  | init (t : ℚ) (h : 0 ≤ t) : Reaches cfg CircuitBreaker.initial t
  | step (b : CircuitBreaker) (t t2 : ℚ) (op : BreakerOp)
      (hr : Reaches cfg b t) (hle : t ≤ t2) :
      Reaches cfg (applyOp cfg op t2 b) t2
  | tick (b : CircuitBreaker) (t t2 : ℚ) (hr : Reaches cfg b t) (hle : t ≤ t2) :
      Reaches cfg b t2

/-- Invariant carried by every reachable breaker: the last-failure timestamp
is in the past; CLOSED keeps the failure count strictly below the threshold;
OPEN and HALF_OPEN keep it at or above the threshold; and HALF_OPEN is only
entered once the recovery timeout has elapsed since the last failure. -/
def BreakerInv (cfg : RetryConfig) (b : CircuitBreaker) (t : ℚ) : Prop :=
  b.lastFailureTime ≤ t ∧
  (b.state = .closed → b.failureCount < cfg.failureThreshold) ∧
  (b.state = .opened → cfg.failureThreshold ≤ b.failureCount) ∧
  (b.state = .halfOpen → cfg.failureThreshold ≤ b.failureCount ∧
    b.lastFailureTime + cfg.recoveryTimeout ≤ t)

theorem inv_tick (cfg : RetryConfig) (b : CircuitBreaker) (t t2 : ℚ)
    (inv : BreakerInv cfg b t) (hle : t ≤ t2) : BreakerInv cfg b t2 := by
  obtain ⟨h1, h2, h3, h4⟩ := inv
  exact ⟨le_trans h1 hle, h2, h3, fun hs => ⟨(h4 hs).1, le_trans (h4 hs).2 hle⟩⟩

theorem inv_check (cfg : RetryConfig) (b : CircuitBreaker) (t t2 : ℚ)
    (inv : BreakerInv cfg b t) (hle : t ≤ t2) :
    BreakerInv cfg (canExecute cfg t2 b).2 t2 := by
  obtain ⟨st, fc, lf, hoc⟩ := b
  obtain ⟨h1, h2, h3, h4⟩ := inv
  have h1t : lf ≤ t2 := le_trans h1 hle
  cases st with
  | closed =>
    exact ⟨h1t, fun _ => h2 rfl, fun hs => CircuitState.noConfusion hs,
      fun hs => CircuitState.noConfusion hs⟩
  | halfOpen =>
    exact ⟨h1t, fun hs => CircuitState.noConfusion hs,
      fun hs => CircuitState.noConfusion hs,
      fun _ => ⟨(h4 rfl).1, le_trans (h4 rfl).2 hle⟩⟩
  | opened =>
    by_cases htime : t2 - lf ≥ cfg.recoveryTimeout
    · have hred : (canExecute cfg t2 ⟨.opened, fc, lf, hoc⟩).2 =
          ⟨.halfOpen, fc, lf, 0⟩ := by
        simp only [canExecute]
        rw [if_pos htime]
      rw [hred]
      exact ⟨h1t, fun hs => CircuitState.noConfusion hs,
        fun hs => CircuitState.noConfusion hs,
        fun _ => ⟨h3 rfl, show lf + cfg.recoveryTimeout ≤ t2 by linarith⟩⟩
    · have hred : (canExecute cfg t2 ⟨.opened, fc, lf, hoc⟩).2 =
          ⟨.opened, fc, lf, hoc⟩ := by
        simp only [canExecute]
        rw [if_neg htime]
      rw [hred]
      exact ⟨h1t, fun hs => CircuitState.noConfusion hs, fun _ => h3 rfl,
        fun hs => CircuitState.noConfusion hs⟩

theorem inv_success (cfg : RetryConfig) (hth : 1 ≤ cfg.failureThreshold)
    (b : CircuitBreaker) (t t2 : ℚ) (inv : BreakerInv cfg b t) (hle : t ≤ t2) :
    BreakerInv cfg (recordSuccess cfg b) t2 := by
  obtain ⟨st, fc, lf, hoc⟩ := b
  obtain ⟨h1, h2, h3, h4⟩ := inv
  have h1t : lf ≤ t2 := le_trans h1 hle
  cases st with
  | closed =>
    exact ⟨h1t, fun _ => show fc - 1 < cfg.failureThreshold by
        have hfc : fc < cfg.failureThreshold := h2 rfl
        omega,
      fun hs => CircuitState.noConfusion hs, fun hs => CircuitState.noConfusion hs⟩
  | opened =>
    exact ⟨h1t, fun hs => CircuitState.noConfusion hs, fun _ => h3 rfl,
      fun hs => CircuitState.noConfusion hs⟩
  | halfOpen =>
    by_cases hcnt : hoc + 1 ≥ cfg.halfOpenMaxCalls
    · have hred : recordSuccess cfg ⟨.halfOpen, fc, lf, hoc⟩ =
          ⟨.closed, 0, lf, hoc + 1⟩ := by
        simp only [recordSuccess]
        rw [if_pos hcnt]
      rw [hred]
      exact ⟨h1t, fun _ => hth, fun hs => CircuitState.noConfusion hs,
        fun hs => CircuitState.noConfusion hs⟩
    · have hred : recordSuccess cfg ⟨.halfOpen, fc, lf, hoc⟩ =
          ⟨.halfOpen, fc, lf, hoc + 1⟩ := by
        simp only [recordSuccess]
        rw [if_neg hcnt]
      rw [hred]
      exact ⟨h1t, fun hs => CircuitState.noConfusion hs,
        fun hs => CircuitState.noConfusion hs,
        fun _ => ⟨(h4 rfl).1, le_trans (h4 rfl).2 hle⟩⟩

theorem inv_failure (cfg : RetryConfig) (b : CircuitBreaker) (t t2 : ℚ)
    (inv : BreakerInv cfg b t) (hle : t ≤ t2) :
    BreakerInv cfg (recordFailure cfg t2 b) t2 := by
  obtain ⟨st, fc, lf, hoc⟩ := b
  obtain ⟨h1, h2, h3, h4⟩ := inv
  cases st with
  | halfOpen =>
    exact ⟨le_refl t2, fun hs => CircuitState.noConfusion hs,
      fun _ => show cfg.failureThreshold ≤ fc + 1 by
        have hfc : cfg.failureThreshold ≤ fc := (h4 rfl).1
        omega,
      fun hs => CircuitState.noConfusion hs⟩
  | opened =>
    exact ⟨le_refl t2, fun hs => CircuitState.noConfusion hs,
      fun _ => show cfg.failureThreshold ≤ fc + 1 by
        have hfc : cfg.failureThreshold ≤ fc := h3 rfl
        omega,
      fun hs => CircuitState.noConfusion hs⟩
  | closed =>
    by_cases hcnt : fc + 1 ≥ cfg.failureThreshold
    · have hred : recordFailure cfg t2 ⟨.closed, fc, lf, hoc⟩ =
          ⟨.opened, fc + 1, t2, hoc⟩ := by
        simp only [recordFailure]
        rw [if_pos hcnt]
      rw [hred]
      exact ⟨le_refl t2, fun hs => CircuitState.noConfusion hs, fun _ => hcnt,
        fun hs => CircuitState.noConfusion hs⟩
    · have hred : recordFailure cfg t2 ⟨.closed, fc, lf, hoc⟩ =
          ⟨.closed, fc + 1, t2, hoc⟩ := by
        simp only [recordFailure]
        rw [if_neg hcnt]
      rw [hred]
      exact ⟨le_refl t2, fun _ => show fc + 1 < cfg.failureThreshold by omega,
        fun hs => CircuitState.noConfusion hs, fun hs => CircuitState.noConfusion hs⟩

theorem reaches_inv (cfg : RetryConfig) (hth : 1 ≤ cfg.failureThreshold)
    (b : CircuitBreaker) (t : ℚ) (hr : Reaches cfg b t) : BreakerInv cfg b t := by
  induction hr with
  | init t h =>
    refine ⟨h, fun _ => hth, fun hs => ?_, fun hs => ?_⟩ <;>
      simp [CircuitBreaker.initial] at hs
  | tick b t t2 hr hle ih => exact inv_tick cfg b t t2 ih hle
  | step b t t2 op hr hle ih =>
    cases op with
    | check => exact inv_check cfg b t t2 ih hle
    | success => exact inv_success cfg hth b t t2 ih hle
    | failure => exact inv_failure cfg b t t2 ih hle

/-- The state the breaker observably is in at time `t`: `can_execute`
performs the OPEN → HALF_OPEN transition lazily, so a stored OPEN state whose
recovery timeout has elapsed behaves as HALF_OPEN on the next check. -/
def effectiveState (cfg : RetryConfig) (t : ℚ) (b : CircuitBreaker) : CircuitState :=
  match b.state with
  | .opened =>
    if t - b.lastFailureTime ≥ cfg.recoveryTimeout then .halfOpen else .opened
  | s => s

/-- Claim C2: for every reachable breaker (threshold at least 1) at current
time `t`, the breaker is observably Open exactly when the failure count has
reached `failure_threshold` and `recovery_timeout` has not yet elapsed since
the last recorded failure; and once the timeout has elapsed on a stored Open
state, the next `can_execute` check — before any call is made — returns true
and performs, exactly once, the transition to HalfOpen with a reset probe
counter. -/
theorem circuitBreaker_open_iff (cfg : RetryConfig) (b : CircuitBreaker) (t : ℚ)
    (hth : 1 ≤ cfg.failureThreshold) (hr : Reaches cfg b t) :
    (effectiveState cfg t b = .opened ↔
      cfg.failureThreshold ≤ b.failureCount ∧
        t - b.lastFailureTime < cfg.recoveryTimeout) ∧
    (b.state = .opened → cfg.recoveryTimeout ≤ t - b.lastFailureTime →
      canExecute cfg t b = (true, { b with state := .halfOpen, halfOpenCalls := 0 })) := by
  obtain ⟨h1, h2, h3, h4⟩ := reaches_inv cfg hth b t hr
  constructor
  · constructor
    · intro heff
      unfold effectiveState at heff
      cases hs : b.state with
      | closed => rw [hs] at heff; exact absurd heff (by simp)
      | halfOpen => rw [hs] at heff; exact absurd heff (by simp)
      | opened =>
        rw [hs] at heff
        by_cases htime : t - b.lastFailureTime ≥ cfg.recoveryTimeout
        · rw [if_pos htime] at heff; exact absurd heff (by simp)
        · exact ⟨h3 hs, by linarith [not_le.mp htime]⟩
    · rintro ⟨hcnt, htime⟩
      unfold effectiveState
      cases hs : b.state with
      | closed => exact absurd hcnt (by have := h2 hs; omega)
      | halfOpen => exact absurd htime (by have := (h4 hs).2; linarith)
      | opened => rw [if_neg (by linarith)]
  · intro hs htime
    unfold canExecute
    rw [hs]
    rw [if_pos htime]

/-- Witness for claim C2: a breaker driven to OPEN by two failures (threshold
2) at times 0 and 1, observed at time 5 with a 10-second recovery timeout:
it is effectively Open, and the iff's right side holds concretely. -/
theorem circuitBreaker_open_iff_witness :
    effectiveState
      { cfgNoJitter with failureThreshold := 2, recoveryTimeout := 10 } 5
      { state := .opened, failureCount := 2, lastFailureTime := 1, halfOpenCalls := 0 }
      = .opened := by
  have hr : Reaches { cfgNoJitter with failureThreshold := 2, recoveryTimeout := 10 }
      { state := .opened, failureCount := 2, lastFailureTime := 1, halfOpenCalls := 0 } 5 := by
    have s0 : Reaches { cfgNoJitter with failureThreshold := 2, recoveryTimeout := 10 }
        CircuitBreaker.initial 0 := Reaches.init 0 (le_refl 0)
    have s1 := Reaches.step _ 0 0 .failure s0 (le_refl 0)
    have s2 := Reaches.step _ 0 1 .failure s1 (by norm_num)
    have s3 := Reaches.tick _ 1 5 s2 (by norm_num)
    have heq : applyOp { cfgNoJitter with failureThreshold := 2, recoveryTimeout := 10 } .failure 1
        (applyOp { cfgNoJitter with failureThreshold := 2, recoveryTimeout := 10 } .failure 0
          CircuitBreaker.initial) =
        { state := .opened, failureCount := 2, lastFailureTime := 1, halfOpenCalls := 0 } := by
      simp [applyOp, recordFailure, CircuitBreaker.initial, cfgNoJitter]
    rwa [heq] at s3
  have h := circuitBreaker_open_iff
    { cfgNoJitter with failureThreshold := 2, recoveryTimeout := 10 }
    { state := .opened, failureCount := 2, lastFailureTime := 1, halfOpenCalls := 0 } 5
    (by norm_num [cfgNoJitter]) hr
  exact h.1.mpr ⟨by norm_num [cfgNoJitter], by norm_num [cfgNoJitter]⟩

/-! ## Retry executor (`src/retry_handler.py`, `RetryHandler.execute_with_retry`) -/

/-- One entry of the attempts list (the `RetryAttempt` dataclass).  The
wall-clock `timestamp` field is pure instrumentation with no data flow into
any decision and is omitted. -/
structure RetryAttempt where
  attemptNumber : Nat
  delay : ℚ
  error : Option PyError
deriving DecidableEq, Repr

/-- The `RetryResult` dataclass.  The `total_duration` field is wall-clock
instrumentation (end time minus start time) with no data flow into any
decision and is omitted. -/
structure RetryResult (α : Type) where
  success : Bool
  result : Option α
  error : Option PyError
  attempts : List RetryAttempt
  circuitBreakerTriggered : Bool
deriving DecidableEq, Repr

/-- A plain `AFSCollectorError(message, retryable=False)` as raised by
`execute_with_retry` for the open-circuit and attempts-exhausted returns:
category API, severity MEDIUM, not retryable, no retry hint. -/
def plainAfsError : PyError :=
  .afs { category := ErrorCategory.api, retryable := false, retryAfter := none
         ctxStatusCode := none, ctxRetryAfter := none }

/-- Records success on the optional breaker, as `execute_with_retry` does. -/
def recordSuccessOpt (cfg : RetryConfig) (cb : Option CircuitBreaker) :
    Option CircuitBreaker :=
  cb.map (recordSuccess cfg)

/-- Records failure on the optional breaker at time `t`. -/
def recordFailureOpt (cfg : RetryConfig) (t : ℚ) (cb : Option CircuitBreaker) :
    Option CircuitBreaker :=
  cb.map (recordFailure cfg t)

/-- The attempt loop of `RetryHandler.execute_with_retry` (retry_handler.py
lines 277-361).  `op attempt` is the outcome of calling the wrapped function
on that attempt; `ts attempt` is the wall-clock time during that iteration
(used by the breaker check and failure recording); `jit attempt` is the
normalized jitter draw for that iteration's delay computation.  The fuel is
the number of loop iterations left (`max_attempts - attempt + 1`); exhausting
it models falling out of the `for` loop into the final
"Maximum retry attempts exceeded" return.  Each iteration first checks the
breaker (returning the circuit-triggered result if it refuses), then runs the
operation, records success or failure on the breaker, and either returns the
success result, sleeps and retries, or returns the final failure. -/
def retryLoop {α : Type} (cfg : RetryConfig) (op : Nat → Except PyError α)
    (ts : Nat → ℚ) (jit : Nat → ℚ) :
    Nat → Nat → Option CircuitBreaker → List RetryAttempt →
    RetryResult α × Option CircuitBreaker
  | 0, _, cb, acc =>
    ({ success := false, result := none, error := some plainAfsError
       attempts := acc, circuitBreakerTriggered := false }, cb)
  | fuel + 1, attempt, cb, acc =>
    let check : Bool × Option CircuitBreaker :=
      match cb with
      | some b => ((canExecute cfg (ts attempt) b).1, some (canExecute cfg (ts attempt) b).2)
      | none => (true, none)
    if check.1 = false then
      ({ success := false, result := none, error := some plainAfsError
         attempts := acc, circuitBreakerTriggered := true }, check.2)
    else
      match op attempt with
      | .ok v =>
        ({ success := true, result := some v, error := none
           attempts := acc ++ [{ attemptNumber := attempt, delay := 0, error := none }]
           circuitBreakerTriggered := false }, recordSuccessOpt cfg check.2)
      | .error e =>
        if shouldRetry cfg e attempt ∧ attempt < cfg.maxAttempts then
          retryLoop cfg op ts jit fuel (attempt + 1)
            (recordFailureOpt cfg (ts attempt) check.2)
            (acc ++ [{ attemptNumber := attempt
                       delay := calculateDelay cfg attempt (some e) (jit attempt)
                       error := some e }])
        else
          ({ success := false, result := none, error := some e
             attempts := acc ++ [{ attemptNumber := attempt, delay := 0, error := some e }]
             circuitBreakerTriggered := false },
           recordFailureOpt cfg (ts attempt) check.2)

/-- Embeds `RetryHandler.execute_with_retry`: the loop starts at attempt 1
with `max_attempts` iterations of fuel and an empty attempts list. -/
def executeWithRetry {α : Type} (cfg : RetryConfig) (cb : Option CircuitBreaker)
    (op : Nat → Except PyError α) (ts : Nat → ℚ) (jit : Nat → ℚ) :
    RetryResult α × Option CircuitBreaker :=
  retryLoop cfg op ts jit cfg.maxAttempts 1 cb []

/-- When `can_execute` answers false it performs no mutation. -/
theorem canExecute_false_eq (cfg : RetryConfig) (t : ℚ) (b : CircuitBreaker)
    (h : (canExecute cfg t b).1 = false) : (canExecute cfg t b).2 = b := by
  obtain ⟨st, fc, lf, hoc⟩ := b
  cases st with
  | closed => rfl
  | halfOpen => rfl
  | opened =>
    by_cases htime : t - lf ≥ cfg.recoveryTimeout
    · have htrue : (canExecute cfg t ⟨.opened, fc, lf, hoc⟩).1 = true := by
        simp only [canExecute]
        rw [if_pos htime]
      rw [htrue] at h
      exact Bool.noConfusion h
    · simp only [canExecute]
      rw [if_neg htime]

/-- Claim C3: whenever a circuit breaker is supplied and reports
`can_execute() == false` at the entry check of `execute_with_retry`
(time `ts 1`), the executor — for *every* operation, which is therefore
never invoked — returns immediately with `success = false`,
`circuit_breaker_triggered = true` and an empty attempts list, and the
breaker state is unchanged (no failure is recorded on it). -/
theorem executeWithRetry_circuitOpen {α : Type} (cfg : RetryConfig)
    (b : CircuitBreaker) (ts : Nat → ℚ) (jit : Nat → ℚ)
    (hmax : 1 ≤ cfg.maxAttempts) (h : (canExecute cfg (ts 1) b).1 = false) :
    ∀ op : Nat → Except PyError α,
      executeWithRetry cfg (some b) op ts jit =
        ({ success := false, result := none, error := some plainAfsError
           attempts := [], circuitBreakerTriggered := true }, some b) := by
  intro op
  unfold executeWithRetry
  obtain ⟨fuel, hfuel⟩ : ∃ fuel, cfg.maxAttempts = fuel + 1 :=
    ⟨cfg.maxAttempts - 1, by omega⟩
  rw [hfuel]
  have hsplit : canExecute cfg (ts 1) b = (false, b) := by
    have h2 := canExecute_false_eq cfg (ts 1) b h
    have : canExecute cfg (ts 1) b = ((canExecute cfg (ts 1) b).1, (canExecute cfg (ts 1) b).2) := rfl
    rw [this, h, h2]
  simp [retryLoop, hsplit]

/-- Witness for claim C3: a breaker stored OPEN whose recovery timeout (60)
has not elapsed at the check time 1, with the default three-attempt policy:
the executor rejects immediately and leaves the breaker untouched. -/
theorem executeWithRetry_circuitOpen_witness :
    executeWithRetry cfgNoJitter
      (some { state := .opened, failureCount := 5, lastFailureTime := 0, halfOpenCalls := 0 })
      (fun _ => (Except.ok () : Except PyError Unit)) (fun _ => 1) (fun _ => 0) =
      ({ success := false, result := none, error := some plainAfsError
         attempts := [], circuitBreakerTriggered := true },
       some { state := .opened, failureCount := 5, lastFailureTime := 0, halfOpenCalls := 0 }) := by
  apply executeWithRetry_circuitOpen cfgNoJitter _ _ _ (by norm_num [cfgNoJitter])
  show (canExecute cfgNoJitter 1
    { state := .opened, failureCount := 5, lastFailureTime := 0, halfOpenCalls := 0 }).1 = false
  simp only [canExecute]
  rw [if_neg (by norm_num [cfgNoJitter])]

/-! ## Data model and metrics transformer (`src/data_models.py`,
`src/metrics_transformer.py`) -/

/-- The `PrometheusMetric` dataclass of `data_models.py`.  The label
dictionary is modelled as an association list in insertion order. -/
structure PrometheusMetric where
  name : String
  value : ℚ
  labels : List (String × String)
  helpText : String
  metricType : String
deriving DecidableEq, Repr

/-- The `AFSQuotaData` dataclass of `data_models.py`. -/
structure AFSQuotaData where
  volumeId : String
  zone : String
  dirPath : String
  fileQuantityQuota : Int
  fileQuantityUsedQuota : Int
  capacityQuota : Int
  capacityUsedQuota : Int
  state : Int
deriving DecidableEq, Repr

/-- Characters kept unchanged by `MetricsTransformer._sanitize_labels`
(the regex `[^a-zA-Z0-9\x5c-_/.]` replaces everything else with an
underscore): ASCII alphanumerics, hyphen, underscore, slash and dot. -/
def labelKeepChar (c : Char) : Bool :=
  (c ≥ 'a' && c ≤ 'z') || (c ≥ 'A' && c ≤ 'Z') || (c ≥ '0' && c ≤ '9') ||
    c = '-' || c = '_' || c = '/' || c = '.'

/-- Embeds `MetricsTransformer._sanitize_labels` for one value
(metrics_transformer.py lines 138-172): map disallowed characters to
underscore, strip leading and trailing underscores, and fall back to
"unknown" when the result is empty. -/
def sanitizeLabelValue (s : String) : String :=
  let mapped := s.toList.map (fun c => if labelKeepChar c then c else '_')
  let stripped :=
    ((mapped.dropWhile (fun c => c = '_')).reverse.dropWhile (fun c => c = '_')).reverse
  if stripped.isEmpty then "unknown" else String.mk stripped

/-- Sanitizes every value of a label association list, keeping keys. -/
def sanitizeLabels (labels : List (String × String)) : List (String × String) :=
  labels.map (fun kv => (kv.1, sanitizeLabelValue kv.2))

/-- Embeds `MetricsTransformer._create_usage_metrics`
(metrics_transformer.py lines 51-136): five unconditional gauges per quota
record, plus the two utilization percentages exactly when the respective
quota is positive.  Python's true division of ints is modelled as exact
division in ℚ. -/
def createUsageMetrics (q : AFSQuotaData) : List PrometheusMetric :=
  let baseLabels := sanitizeLabels
    [("volume_id", q.volumeId), ("zone", q.zone), ("dir_path", q.dirPath)]
  [{ name := "afs_capacity_used_bytes", value := (q.capacityUsedQuota : ℚ)
     labels := baseLabels, helpText := "Used storage capacity in bytes"
     metricType := "gauge" },
   { name := "afs_capacity_quota_bytes", value := (q.capacityQuota : ℚ)
     labels := baseLabels
     helpText := "Total capacity quota in bytes (0 means unlimited)"
     metricType := "gauge" },
   { name := "afs_file_quantity_used", value := (q.fileQuantityUsedQuota : ℚ)
     labels := baseLabels, helpText := "Number of files used"
     metricType := "gauge" },
   { name := "afs_file_quantity_quota", value := (q.fileQuantityQuota : ℚ)
     labels := baseLabels
     helpText := "File quantity quota (0 means unlimited)"
     metricType := "gauge" },
   { name := "afs_directory_state", value := (q.state : ℚ)
     labels := baseLabels, helpText := "Directory state (1=active, 0=inactive)"
     metricType := "gauge" }] ++
  (if q.capacityQuota > 0 then
    [{ name := "afs_capacity_utilization_percent"
       value := (q.capacityUsedQuota : ℚ) / (q.capacityQuota : ℚ) * 100
       labels := baseLabels
       helpText := "Storage capacity utilization percentage"
       metricType := "gauge" }]
   else []) ++
  (if q.fileQuantityQuota > 0 then
    [{ name := "afs_file_quantity_utilization_percent"
       value := (q.fileQuantityUsedQuota : ℚ) / (q.fileQuantityQuota : ℚ) * 100
       labels := baseLabels
       helpText := "File quantity utilization percentage"
       metricType := "gauge" }]
   else [])

/-- All sample values carried by metrics of a given name, in order. -/
def samplesOf (n : String) (ms : List PrometheusMetric) : List ℚ :=
  ms.filterMap (fun m => if m.name = n then some m.value else none)

/-- Claim C9: for every quota directory record, the transformer emits exactly
one `afs_capacity_used_bytes` sample equal to the used quota, and emits an
`afs_capacity_utilization_percent` sample — equal to used/quota × 100 —
exactly when the capacity quota is positive. -/
theorem usageMetrics_capacity (q : AFSQuotaData) :
    samplesOf "afs_capacity_used_bytes" (createUsageMetrics q) =
      [(q.capacityUsedQuota : ℚ)] ∧
    (0 < q.capacityQuota →
      samplesOf "afs_capacity_utilization_percent" (createUsageMetrics q) =
        [(q.capacityUsedQuota : ℚ) / (q.capacityQuota : ℚ) * 100]) ∧
    (q.capacityQuota ≤ 0 →
      samplesOf "afs_capacity_utilization_percent" (createUsageMetrics q) = []) := by
  refine ⟨?_, ?_, ?_⟩
  · by_cases h1 : q.capacityQuota > 0 <;> by_cases h2 : q.fileQuantityQuota > 0 <;>
      simp [samplesOf, createUsageMetrics, h1, h2]
  · intro h1
    by_cases h2 : q.fileQuantityQuota > 0 <;>
      simp [samplesOf, createUsageMetrics, h1, h2]
  · intro h1
    have h1n : ¬ q.capacityQuota > 0 := by omega
    by_cases h2 : q.fileQuantityQuota > 0 <;>
      simp [samplesOf, createUsageMetrics, h1n, h2]

/-- Witness for claim C9: the spec's end-to-end scenario.  A record with
`capacity_quota = 0`, `capacity_used_quota = 5000000` yields a used-bytes
sample of 5000000 and no utilization sample; a record with
`capacity_quota = 1000`, `capacity_used_quota = 500` yields a utilization
sample of exactly 50. -/
theorem usageMetrics_capacity_witness :
    samplesOf "afs_capacity_used_bytes"
      (createUsageMetrics
        { volumeId := "vol1", zone := "z1", dirPath := "/data"
          fileQuantityQuota := 0, fileQuantityUsedQuota := 0
          capacityQuota := 0, capacityUsedQuota := 5000000, state := 1 }) =
      [(5000000 : ℚ)] ∧
    samplesOf "afs_capacity_utilization_percent"
      (createUsageMetrics
        { volumeId := "vol1", zone := "z1", dirPath := "/data"
          fileQuantityQuota := 0, fileQuantityUsedQuota := 0
          capacityQuota := 0, capacityUsedQuota := 5000000, state := 1 }) = [] ∧
    samplesOf "afs_capacity_utilization_percent"
      (createUsageMetrics
        { volumeId := "vol1", zone := "z1", dirPath := "/data"
          fileQuantityQuota := 0, fileQuantityUsedQuota := 0
          capacityQuota := 1000, capacityUsedQuota := 500, state := 1 }) =
      [(50 : ℚ)] := by
  have h1 := usageMetrics_capacity
    { volumeId := "vol1", zone := "z1", dirPath := "/data"
      fileQuantityQuota := 0, fileQuantityUsedQuota := 0
      capacityQuota := 0, capacityUsedQuota := 5000000, state := 1 }
  have h2 := usageMetrics_capacity
    { volumeId := "vol1", zone := "z1", dirPath := "/data"
      fileQuantityQuota := 0, fileQuantityUsedQuota := 0
      capacityQuota := 1000, capacityUsedQuota := 500, state := 1 }
  refine ⟨h1.1, h1.2.2 (by norm_num), ?_⟩
  have := h2.2.1 (by norm_num)
  rw [this]
  norm_num

/-! ## Collection orchestrator (`src/metrics_handler.py`) -/

/-- Substring test helpers: Python's `needle in hay` on strings. -/
def listPrefixOf : List Char → List Char → Bool
  | [], _ => true
  | _ :: _, [] => false
  | a :: as, b :: bs => a == b && listPrefixOf as bs

def listInfixOf (needle : List Char) : List Char → Bool
  | [] => needle.isEmpty
  | b :: bs => listPrefixOf needle (b :: bs) || listInfixOf needle bs

def strContains (hay needle : String) : Bool :=
  listInfixOf needle.toList hay.toList

/-- Python's `str.lower()` (ASCII-relevant part). -/
def lowerStr (s : String) : String :=
  String.mk (s.toList.map Char.toLower)

/-- The error-category classification of
`MetricsHandler._create_volume_status_metrics`
(metrics_handler.py lines 377-388): substring matching on the error text. -/
def errorCategoryOf (err : String) : String :=
  if strContains (lowerStr err) "timeout" then "timeout"
  else if strContains (lowerStr err) "connection" then "connection"
  else if strContains (lowerStr err) "authentication" then "authentication"
  else if strContains (lowerStr err) "rate limit" then "rate_limit"
  else if strContains err "404" || strContains err "500" ||
    strContains err "502" || strContains err "503" then "api_error"
  else "unknown"

/-- The `VolumeCollectionResult` dataclass (metrics_handler.py lines 31-39). -/
structure VolumeCollectionResult where
  volumeId : String
  zone : String
  success : Bool
  metrics : List PrometheusMetric
  error : Option String
  duration : ℚ
deriving DecidableEq, Repr

/-- The four per-result status metrics of
`MetricsHandler._create_volume_status_metrics`
(metrics_handler.py lines 330-401): a success gauge and a duration gauge
always, the per-volume metric count only on success, the error gauge only on
failure with a truthy (non-empty) error string. -/
def perResultStatusMetrics (r : VolumeCollectionResult) : List PrometheusMetric :=
  [{ name := "afs_collection_success", value := if r.success then 1 else 0
     labels := [("volume_id", r.volumeId), ("zone", r.zone)]
     helpText := "Success indicator for volume collection (1=success, 0=failure)"
     metricType := "gauge" },
   { name := "afs_collection_duration_seconds", value := r.duration
     labels := [("volume_id", r.volumeId), ("zone", r.zone)]
     helpText := "Duration of volume collection in seconds"
     metricType := "gauge" }] ++
  (if r.success then
    [{ name := "afs_volume_metrics_count", value := (r.metrics.length : ℚ)
       labels := [("volume_id", r.volumeId), ("zone", r.zone)]
       helpText := "Number of metrics collected from this volume"
       metricType := "gauge" }]
   else []) ++
  (if r.success = false ∧ r.error.getD "" ≠ "" then
    [{ name := "afs_collection_error", value := 1
       labels := [("volume_id", r.volumeId), ("zone", r.zone),
                  ("error_category", errorCategoryOf (r.error.getD "")),
                  ("error_message", (r.error.getD "").take 100)]
       helpText := "Indicates an error occurred during volume collection"
       metricType := "gauge" }]
   else [])

/-- The aggregate block of `_create_volume_status_metrics`
(metrics_handler.py lines 403-442), emitted only for a non-empty result
list. -/
def aggregateStatusMetrics (results : List VolumeCollectionResult) :
    List PrometheusMetric :=
  if results.length > 0 then
    [{ name := "afs_collection_success_rate"
       value := ((results.filter (·.success)).length : ℚ) / (results.length : ℚ)
       labels := []
       helpText := "Success rate of volume collections (0.0 to 1.0)"
       metricType := "gauge" },
     { name := "afs_collection_volumes_successful"
       value := ((results.filter (·.success)).length : ℚ), labels := []
       helpText := "Number of volumes successfully collected"
       metricType := "gauge" },
     { name := "afs_collection_volumes_failed"
       value := ((results.filter (fun r => !r.success)).length : ℚ), labels := []
       helpText := "Number of volumes that failed collection"
       metricType := "gauge" },
     { name := "afs_collection_volumes_total"
       value := (results.length : ℚ), labels := []
       helpText := "Total number of volumes attempted"
       metricType := "gauge" },
     { name := "afs_collection_average_duration_seconds"
       value := (results.map (·.duration)).sum / (results.length : ℚ), labels := []
       helpText := "Average collection duration per volume in seconds"
       metricType := "gauge" }]
  else []

/-- Embeds `MetricsHandler._create_volume_status_metrics`: the per-result
loop followed by the aggregate block. -/
def createVolumeStatusMetrics (results : List VolumeCollectionResult) :
    List PrometheusMetric :=
  results.flatMap perResultStatusMetrics ++ aggregateStatusMetrics results

/-- The identity string used for a failed volume in the aggregate error:
Python's f-string `f"{r.volume_id}@{r.zone}"`. -/
def volumeIdentity (r : VolumeCollectionResult) : String :=
  r.volumeId ++ "@" ++ r.zone

/-- The data of a `PartialCollectionError` as raised by
`_fetch_all_volumes`: the message and the `failed_volumes` context list. -/
structure PartialCollectionInfo where
  message : String
  failedVolumes : List String
deriving DecidableEq, Repr

/-- Embeds the aggregation tail of `MetricsHandler._fetch_all_volumes`
(metrics_handler.py lines 157-232), taking the per-volume results in
completion order: successful results contribute their metrics (in completion
order), per-volume and aggregate status metrics are appended, and if every
volume failed — and there is at least one — a `PartialCollectionError`
naming all failed volumes is raised; otherwise the metric list is
returned. -/
def fetchAllVolumes (results : List VolumeCollectionResult) :
    Except PartialCollectionInfo (List PrometheusMetric) :=
  let allMetrics :=
    results.flatMap (fun r => if r.success then r.metrics else []) ++
      createVolumeStatusMetrics results
  let failed := results.filter (fun r => !r.success)
  if failed.length ≠ 0 ∧ failed.length = results.length then
    .error { message :=
               "All " ++ toString failed.length ++ " volumes failed during collection"
             failedVolumes := failed.map volumeIdentity }
  else .ok allMetrics

/-- The `CachedMetrics` dataclass (metrics_handler.py lines 23-28). -/
structure CachedMetrics where
  metrics : List PrometheusMetric
  timestamp : ℚ
  collectionDuration : ℚ
deriving DecidableEq, Repr

/-- The mutable state of a `MetricsHandler` instance: the cache slot, the
last-collection timestamp and the collection counter
(metrics_handler.py lines 67-74). -/
structure HandlerState where
  cache : Option CachedMetrics
  lastCollectionTime : Option ℚ
  collectionCount : Nat
deriving DecidableEq, Repr

/-- Embeds `MetricsHandler._is_cache_valid` (metrics_handler.py
lines 142-155) at wall-clock time `t`. -/
def isCacheValid (cacheDuration t : ℚ) (st : HandlerState) : Bool :=
  match st.cache with
  | none => false
  | some c => decide (t - c.timestamp < cacheDuration)

/-- Embeds `MetricsHandler._create_error_metrics`
(metrics_handler.py lines 575-605). -/
def createErrorMetrics (msg : String) (t : ℚ) : List PrometheusMetric :=
  [{ name := "afs_collection_error", value := 1
     labels := [("error", msg.take 100)]
     helpText := "Indicates an error occurred during metrics collection"
     metricType := "gauge" },
   { name := "afs_scrape_timestamp", value := t, labels := []
     helpText := "Unix timestamp of the last scrape attempt"
     metricType := "gauge" }]

/-- Renders a circuit state as its Python enum value string. -/
def circuitStateValue : CircuitState → String
  | .closed => "closed"
  | .opened => "open"
  | .halfOpen => "half_open"

/-- Embeds `MetricsHandler._create_collection_metadata`
(metrics_handler.py lines 446-573).  `now` is the `current_time` read at the
top of the method, `cacheAgeNow` the separate read inside
`get_cache_status`; the handler state `st` is the state *before* the cache
update and counter increment (the method runs before both). -/
def createCollectionMetadata (duration now cacheAgeNow : ℚ) (st : HandlerState)
    (volumesCount : Nat) (maxRetries timeoutSeconds cacheDuration : ℚ)
    (cbStatus : List (String × CircuitBreaker)) : List PrometheusMetric :=
  [{ name := "afs_scrape_duration_seconds", value := duration, labels := []
     helpText := "Total duration of the metrics scrape in seconds"
     metricType := "gauge" },
   { name := "afs_scrape_timestamp", value := now, labels := []
     helpText := "Unix timestamp of the last successful scrape"
     metricType := "gauge" },
   { name := "afs_collection_total", value := (st.collectionCount : ℚ)
     labels := []
     helpText := "Total number of collection cycles performed"
     metricType := "counter" },
   { name := "afs_configured_volumes", value := (volumesCount : ℚ), labels := []
     helpText := "Number of configured AFS volumes"
     metricType := "gauge" },
   { name := "afs_cache_hit", value := if st.cache.isSome then 1 else 0
     labels := []
     helpText := "Whether the last scrape used cached data (1=cached, 0=fresh)"
     metricType := "gauge" }] ++
  (match st.cache with
   | some c =>
     [{ name := "afs_cache_age_seconds", value := cacheAgeNow - c.timestamp
        labels := [], helpText := "Age of cached data in seconds"
        metricType := "gauge" }]
   | none => []) ++
  (match st.lastCollectionTime with
   | some lt =>
     if lt ≠ 0 then
       [{ name := "afs_time_since_last_collection_seconds", value := now - lt
          labels := [], helpText := "Time since last collection in seconds"
          metricType := "gauge" }]
     else []
   | none => []) ++
  [{ name := "afs_config_max_retries", value := maxRetries, labels := []
     helpText := "Configured maximum retry attempts", metricType := "gauge" },
   { name := "afs_config_timeout_seconds", value := timeoutSeconds, labels := []
     helpText := "Configured collection timeout in seconds"
     metricType := "gauge" },
   { name := "afs_config_cache_duration_seconds", value := cacheDuration
     labels := []
     helpText := "Configured cache duration in seconds"
     metricType := "gauge" }] ++
  cbStatus.flatMap (fun p =>
    [{ name := "afs_circuit_breaker_state"
       value := if p.2.state = .closed then 1 else 0
       labels := [("circuit_breaker", p.1), ("state", circuitStateValue p.2.state)]
       helpText := "Circuit breaker state (1=closed/healthy, 0=open/failing)"
       metricType := "gauge" },
     { name := "afs_circuit_breaker_failures", value := (p.2.failureCount : ℚ)
       labels := [("circuit_breaker", p.1)]
       helpText := "Number of failures recorded by circuit breaker"
       metricType := "gauge" }])

/-- The wall-clock reads made during one `collect_metrics` call, in program
order: the two cache validity checks, the start time, the duration
measurement on success, the two reads inside metadata creation, the cache
store timestamp, the `_last_collection_time` store, and the timestamp and
duration measurement of the exception path. -/
structure CollectClock where
  check1 : ℚ
  check2 : ℚ
  start : ℚ
  finish : ℚ
  metaNow : ℚ
  cacheAgeNow : ℚ
  store : ℚ
  lastColl : ℚ
  errNow : ℚ
  errFinish : ℚ
deriving DecidableEq, Repr

/-- The cached fast-path return: the cached metric list and the cached
collection duration.  Only reached when the cache is present. -/
def cachedReturn (st : HandlerState) : List PrometheusMetric × ℚ :=
  match st.cache with
  | some c => (c.metrics, c.collectionDuration)
  | none => ([], 0)

/-- Embeds `MetricsHandler.collect_metrics` (metrics_handler.py
lines 76-140) as a state transformer.  The in-thread sequence is: fast-path
cache check, double-check under the collection lock, then the actual cycle.
`fetched` is the outcome of `_fetch_all_volumes()` (plus any other exception
escaping the `try` body, which takes the same `except` path).  On success the
metadata is appended, the cache slot is replaced, and the timestamp and
counter are updated (metadata is built *before* the counter increment); on
any exception the handler returns the error-metric set and performs no state
update. -/
def collectMetrics (cacheDuration : ℚ) (volumesCount : Nat)
    (maxRetries timeoutSeconds : ℚ) (cbStatus : List (String × CircuitBreaker))
    (clock : CollectClock)
    (fetched : Except PartialCollectionInfo (List PrometheusMetric))
    (st : HandlerState) : (List PrometheusMetric × ℚ) × HandlerState :=
  if isCacheValid cacheDuration clock.check1 st then (cachedReturn st, st)
  else if isCacheValid cacheDuration clock.check2 st then (cachedReturn st, st)
  else
    match fetched with
    | .ok ms =>
      let duration := clock.finish - clock.start
      let allMetrics := ms ++
        createCollectionMetadata duration clock.metaNow clock.cacheAgeNow st
          volumesCount maxRetries timeoutSeconds cacheDuration cbStatus
      ((allMetrics, duration),
       { cache := some { metrics := allMetrics, timestamp := clock.store
                         collectionDuration := duration }
         lastCollectionTime := some clock.lastColl
         collectionCount := st.collectionCount + 1 })
    | .error e =>
      ((createErrorMetrics e.message clock.errNow, clock.errFinish - clock.start), st)

/-- The `VolumeConfig` entries of the configuration (config.py): one
configured source per volume/zone pair. -/
structure VolumeConfig where
  volumeId : String
  zone : String
deriving DecidableEq, Repr

/-- The outcome of one per-volume task as seen by the `as_completed` loop of
`_fetch_all_volumes`: either `future.result()` returns a
`VolumeCollectionResult` (`_collect_volume_metrics` itself catches all
exceptions), or it raises with some message. -/
inductive TaskOutcome
  | done (r : VolumeCollectionResult)
  | raised (msg : String)
deriving DecidableEq, Repr

/-- The per-future handling of the `as_completed` loop (metrics_handler.py
lines 188-213): a returned result is appended as is; a raised exception is
converted to a failed result for that volume with the truncated message. -/
def resultOfTask (vc : VolumeConfig) (o : TaskOutcome) : VolumeCollectionResult :=
  match o with
  | .done r => r
  | .raised msg =>
    { volumeId := vc.volumeId, zone := vc.zone, success := false, metrics := []
      error := some (msg.take 200), duration := 0 }

/-- The full `as_completed` loop: one result per submitted task, in
completion order. -/
def gatherResults (tasks : List (VolumeConfig × TaskOutcome)) :
    List VolumeCollectionResult :=
  tasks.map (fun p => resultOfTask p.1 p.2)

/-- Number of metrics with the given name in a metric list. -/
def countName (n : String) (ms : List PrometheusMetric) : Nat :=
  (ms.filter (fun m => decide (m.name = n))).length

theorem countName_append (n : String) (a b : List PrometheusMetric) :
    countName n (a ++ b) = countName n a + countName n b := by
  simp [countName, List.filter_append]

theorem countName_success_perResult (r : VolumeCollectionResult) :
    countName "afs_collection_success" (perResultStatusMetrics r) = 1 := by
  by_cases hs : r.success <;>
    by_cases he : (r.error.getD "") = "" <;>
      simp [perResultStatusMetrics, countName, hs, he]

theorem countName_success_aggregate (rs : List VolumeCollectionResult) :
    countName "afs_collection_success" (aggregateStatusMetrics rs) = 0 := by
  by_cases h : rs.length > 0 <;> simp [aggregateStatusMetrics, countName, h]

theorem countName_success_flatMap (rs : List VolumeCollectionResult) :
    countName "afs_collection_success" (rs.flatMap perResultStatusMetrics) =
      rs.length := by
  induction rs with
  | nil => simp [countName]
  | cons r t ih =>
    rw [List.flatMap_cons, countName_append, countName_success_perResult, ih,
      List.length_cons]
    omega

/-- Claim C8: for every configured source list, every assignment of task
outcomes (including tasks that raise unexpectedly), and every completion
order (any permutation of the submitted tasks), the cycle produces exactly
one per-source result — the result count equals the configured source
count — and the status metrics contain exactly one `afs_collection_success`
entry per configured source. -/
theorem one_result_per_source (volumes : List VolumeConfig)
    (outcomes : List TaskOutcome) (completed : List (VolumeConfig × TaskOutcome))
    (hlen : outcomes.length = volumes.length)
    (hperm : completed.Perm (volumes.zip outcomes)) :
    (gatherResults completed).length = volumes.length ∧
    countName "afs_collection_success"
      (createVolumeStatusMetrics (gatherResults completed)) = volumes.length := by
  have hclen : completed.length = volumes.length := by
    rw [hperm.length_eq, List.length_zip]
    omega
  constructor
  · rw [gatherResults, List.length_map, hclen]
  · rw [createVolumeStatusMetrics, countName_append, countName_success_flatMap,
      countName_success_aggregate, gatherResults, List.length_map, hclen]
    omega

/-- Witness for claim C8: two configured sources, one succeeding task and one
task raising an unexpected exception, completing in reversed order. -/
theorem one_result_per_source_witness :
    (gatherResults
      [(⟨"v2", "z2"⟩, .raised "boom"),
       (⟨"v1", "z1"⟩, .done
         { volumeId := "v1", zone := "z1", success := true, metrics := []
           error := none, duration := 0 })]).length = 2 ∧
    countName "afs_collection_success"
      (createVolumeStatusMetrics (gatherResults
        [(⟨"v2", "z2"⟩, .raised "boom"),
         (⟨"v1", "z1"⟩, .done
           { volumeId := "v1", zone := "z1", success := true, metrics := []
             error := none, duration := 0 })])) = 2 := by
  exact one_result_per_source
    [⟨"v1", "z1"⟩, ⟨"v2", "z2"⟩]
    [.done { volumeId := "v1", zone := "z1", success := true, metrics := []
             error := none, duration := 0 }, .raised "boom"]
    _ rfl (List.Perm.swap _ _ [])

/-- Helper: a filtered list has full length exactly when the predicate holds
everywhere. -/
theorem filter_length_eq_iff {α : Type} (p : α → Bool) (l : List α) :
    (l.filter p).length = l.length ↔ ∀ a ∈ l, p a = true := by
  induction l with
  | nil => simp
  | cons a t ih =>
    by_cases h : p a
    · simp [h, ih]
    · simp only [List.filter_cons, h, if_false, Bool.false_eq_true, List.length_cons]
      constructor
      · intro h2
        have := List.length_filter_le p t
        omega
      · intro h2
        exact absurd (h2 a (by simp)) (by simp [h])

/-- Claim C1 (amended): the aggregate `PartialCollectionError` is raised by
the internal fetch (`_fetch_all_volumes`) exactly when there is at least one
configured source and every source failed, and it then enumerates all failed
source identities; `collect_metrics` itself *catches* that error and returns
the error-metric set normally — it does not propagate the exception — while
a cycle with at least one success returns through the normal path. -/
theorem totalFailure_raised_and_caught (results : List VolumeCollectionResult)
    (cd : ℚ) (vc : Nat) (mr tsec : ℚ) (cbs : List (String × CircuitBreaker))
    (clock : CollectClock) (st : HandlerState)
    (h1 : isCacheValid cd clock.check1 st = false)
    (h2 : isCacheValid cd clock.check2 st = false) :
    ((∃ pce, fetchAllVolumes results = .error pce) ↔
      results ≠ [] ∧ ∀ r ∈ results, r.success = false) ∧
    (∀ pce, fetchAllVolumes results = .error pce →
      pce.failedVolumes = results.map volumeIdentity) ∧
    (∀ pce, fetchAllVolumes results = .error pce →
      collectMetrics cd vc mr tsec cbs clock (fetchAllVolumes results) st =
        ((createErrorMetrics pce.message clock.errNow,
          clock.errFinish - clock.start), st)) := by
  have hcond : ((results.filter (fun r => !r.success)).length ≠ 0 ∧
      (results.filter (fun r => !r.success)).length = results.length) ↔
      (results ≠ [] ∧ ∀ r ∈ results, r.success = false) := by
    rw [filter_length_eq_iff]
    constructor
    · rintro ⟨ha, hb⟩
      refine ⟨?_, fun r hr => by simpa using hb r hr⟩
      intro hnil
      rw [hnil] at ha
      simp at ha
    · rintro ⟨ha, hb⟩
      have hall : ∀ r ∈ results, (!r.success) = true := fun r hr => by
        simp [hb r hr]
      refine ⟨?_, hall⟩
      rw [List.filter_eq_self.mpr hall]
      simpa using ha
  have hfail : ∀ pce, fetchAllVolumes results = .error pce →
      results ≠ [] ∧ ∀ r ∈ results, r.success = false := by
    intro pce hp
    unfold fetchAllVolumes at hp
    by_cases hc : ((results.filter (fun r => !r.success)).length ≠ 0 ∧
        (results.filter (fun r => !r.success)).length = results.length)
    · exact hcond.mp hc
    · rw [if_neg hc] at hp
      exact Except.noConfusion hp
  refine ⟨⟨fun ⟨pce, hp⟩ => hfail pce hp, ?_⟩, ?_, ?_⟩
  · intro hr
    exact ⟨_, by unfold fetchAllVolumes; rw [if_pos (hcond.mpr hr)]⟩
  · intro pce hp
    have hr := hfail pce hp
    have hall : ∀ r ∈ results, (!r.success) = true := fun r hr2 => by
      simp [hr.2 r hr2]
    have hself : results.filter (fun r => !r.success) = results :=
      List.filter_eq_self.mpr hall
    unfold fetchAllVolumes at hp
    rw [if_pos (hcond.mpr hr)] at hp
    have heq := (Except.error.injEq _ _).mp hp.symm
    subst heq
    simp [hself]
  · intro pce hp
    rw [hp]
    unfold collectMetrics
    rw [h1, h2]
    simp

/-- A concrete all-failed single-volume result. -/
def failedOnlyResult : VolumeCollectionResult :=
  { volumeId := "vol1", zone := "zone1", success := false, metrics := []
    error := some "Unexpected error: boom", duration := 0 }

/-- A concrete clock with all reads at time zero. -/
def clockZero : CollectClock :=
  { check1 := 0, check2 := 0, start := 0, finish := 0, metaNow := 0
    cacheAgeNow := 0, store := 0, lastColl := 0, errNow := 0, errFinish := 0 }

/-- A freshly constructed handler: empty cache, no collections yet. -/
def emptyState : HandlerState :=
  { cache := none, lastCollectionTime := none, collectionCount := 0 }

/-- Claim C1 (counterexample): at a concrete cycle in which the single
configured source fails, the internal fetch does raise the aggregate error,
but `collect_metrics` returns the error-metric set *normally* — the claim
that `collect_metrics` raises on total failure is false; the exception never
escapes it. -/
theorem collect_totalFailure_returns_counterexample :
    (fetchAllVolumes [failedOnlyResult]).isOk = false ∧
    collectMetrics 30 1 3 10 [] clockZero (fetchAllVolumes [failedOnlyResult])
      emptyState =
      ((createErrorMetrics "All 1 volumes failed during collection"
          clockZero.errNow,
        clockZero.errFinish - clockZero.start), emptyState) := by
  exact ⟨by decide, rfl⟩

/-- Witness for claim C1: the amended statement applied at the same concrete
all-failed input, extracting that the fetch raises and that it names the
failed source identity. -/
theorem totalFailure_raised_and_caught_witness :
    (∃ pce, fetchAllVolumes [failedOnlyResult] = .error pce) ∧
    (∀ pce, fetchAllVolumes [failedOnlyResult] = .error pce →
      pce.failedVolumes = ["vol1@zone1"]) := by
  have h := totalFailure_raised_and_caught [failedOnlyResult] 30 1 3 10 []
    clockZero emptyState rfl rfl
  refine ⟨h.1.mpr ⟨by simp, by decide⟩, fun pce hp => ?_⟩
  have := h.2.1 pce hp
  rw [this]
  decide

/-- Claim C10: whenever the collection cycle fails with any exception
(including the all-sources-failed aggregate error), `collect_metrics`
returns the error-metric set and leaves the handler state unchanged — the
cached snapshot is neither replaced nor cleared, and the collection counter
and last-collection timestamp are not updated; consequently a subsequent
call whose cache checks still miss performs a fresh collection (its success
path stores a new cache entry and increments the counter). -/
theorem collectMetrics_error_preserves_state (cd : ℚ) (vc : Nat) (mr tsec : ℚ)
    (cbs : List (String × CircuitBreaker)) (clock : CollectClock)
    (e : PartialCollectionInfo) (st : HandlerState)
    (h1 : isCacheValid cd clock.check1 st = false)
    (h2 : isCacheValid cd clock.check2 st = false) :
    collectMetrics cd vc mr tsec cbs clock (.error e) st =
      ((createErrorMetrics e.message clock.errNow,
        clock.errFinish - clock.start), st) ∧
    (∀ (ms : List PrometheusMetric) (clock2 : CollectClock),
      isCacheValid cd clock2.check1 st = false →
      isCacheValid cd clock2.check2 st = false →
      (collectMetrics cd vc mr tsec cbs clock2 (.ok ms) st).2.collectionCount =
        st.collectionCount + 1 ∧
      ((collectMetrics cd vc mr tsec cbs clock2 (.ok ms) st).2.cache).isSome =
        true) := by
  constructor
  · unfold collectMetrics
    rw [h1, h2]
    simp
  · intro ms clock2 h3 h4
    unfold collectMetrics
    rw [h3, h4]
    simp

/-- Witness for claim C10: a handler with an existing (stale) cached
snapshot, a failing cycle at concrete times: the returned state keeps the
old snapshot and counters, and a subsequent successful cycle increments the
counter. -/
theorem collectMetrics_error_preserves_state_witness :
    collectMetrics 30 1 3 10 []
      { clockZero with check1 := 100, check2 := 100, errNow := 101, errFinish := 102 }
      (.error { message := "boom", failedVolumes := [] })
      { cache := some { metrics := [], timestamp := 0, collectionDuration := 1 }
        lastCollectionTime := some 1, collectionCount := 7 } =
      ((createErrorMetrics "boom" 101, (102 : ℚ) - 0),
       { cache := some { metrics := [], timestamp := 0, collectionDuration := 1 }
         lastCollectionTime := some 1, collectionCount := 7 }) := by
  have h := collectMetrics_error_preserves_state 30 1 3 10 []
    { clockZero with check1 := 100, check2 := 100, errNow := 101, errFinish := 102 }
    { message := "boom", failedVolumes := [] }
    { cache := some { metrics := [], timestamp := 0, collectionDuration := 1 }
      lastCollectionTime := some 1, collectionCount := 7 }
    (by norm_num [isCacheValid, clockZero]) (by norm_num [isCacheValid, clockZero])
  exact h.1

/-! ## Prometheus exposition format (`src/metrics_transformer.py`,
`format_prometheus_metrics` / `_format_metric_line`)

The formatter is embedded over `List Char` (Python string operations map
one-to-one onto character-list operations); `formatPrometheusString` packs
the result back into a `String`.  Python's `str(float)` rendering of the
sample value is abstracted as a parameter `vr : ℚ → List Char` (its output
never contains a newline). -/

/-- Escaping of one label value by `_format_metric_line`
(metrics_transformer.py line 243):
`value.replace(backslash, double backslash).replace(quote, backslash-quote)`.
The two sequential global replaces are equivalent to this single character-
wise pass: the first pass doubles every backslash and leaves quotes alone,
and the second inserts a backslash before every quote, never touching the
backslashes just produced (quotes are not backslashes). -/
def escapeLabelValue : List Char → List Char
  | [] => []
  | c :: t =>
    if c = '\\' then '\\' :: '\\' :: escapeLabelValue t
    else if c = '"' then '\\' :: '"' :: escapeLabelValue t
    else c :: escapeLabelValue t

/-- Lexicographic comparison of character lists, as Python compares
strings. -/
def charListLt : List Char → List Char → Bool
  | [], [] => false
  | [], _ :: _ => true
  | _ :: _, [] => false
  | a :: as, b :: bs => if a = b then charListLt as bs else decide (a < b)

/-- Python string `<`. -/
def strLt (a b : String) : Bool :=
  charListLt a.toList b.toList

/-- Python tuple comparison `(k1, v1) <= (k2, v2)` as used by
`sorted(metric.labels.items())`: keys first, values break ties. -/
def pairLe (a b : String × String) : Bool :=
  if a.1 = b.1 then !(strLt b.2 a.2) else strLt a.1 b.1

/-- Insertion into a sorted pair list. -/
def insertPair (p : String × String) : List (String × String) → List (String × String)
  | [] => [p]
  | q :: qs => if pairLe p q then p :: q :: qs else q :: insertPair p qs

/-- Embeds `sorted(metric.labels.items())` as an insertion sort with the
same (key, value) lexicographic order. -/
def sortPairs (l : List (String × String)) : List (String × String) :=
  l.foldr insertPair []

/-- One rendered label pair: `key="escaped-value"`
(metrics_transformer.py line 244). -/
def renderLabelPair (kv : String × String) : List Char :=
  kv.1.toList ++ '=' :: '"' :: (escapeLabelValue kv.2.toList ++ ['"'])

/-- Python's `','.join`. -/
def joinComma : List (List Char) → List Char
  | [] => []
  | [x] => x
  | x :: xs => x ++ ',' :: joinComma xs

/-- Python's newline `join`. -/
def joinNl : List (List Char) → List Char
  | [] => []
  | [x] => x
  | x :: xs => x ++ '\n' :: joinNl xs

/-- Embeds `MetricsTransformer._format_metric_line`
(metrics_transformer.py lines 223-248): without labels the line is
`name value`; with labels the sorted, escaped pairs are joined with commas
inside braces. -/
def formatMetricLine (vr : ℚ → List Char) (m : PrometheusMetric) : List Char :=
  if m.labels.isEmpty then m.name.toList ++ ' ' :: vr m.value
  else
    m.name.toList ++ '{' ::
      (joinComma ((sortPairs m.labels).map renderLabelPair) ++
        '}' :: ' ' :: vr m.value)

/-- Appends a metric to the insertion-ordered name-grouping dictionary
(`metrics_by_name` in `format_prometheus_metrics`,
metrics_transformer.py lines 196-200). -/
def insertGrouped (groups : List (String × List PrometheusMetric))
    (m : PrometheusMetric) : List (String × List PrometheusMetric) :=
  match groups with
  | [] => [(m.name, [m])]
  | g :: gs =>
    if g.1 = m.name then (g.1, g.2 ++ [m]) :: gs else g :: insertGrouped gs m

/-- The insertion-ordered grouping of metrics by name. -/
def groupByName (ms : List PrometheusMetric) :
    List (String × List PrometheusMetric) :=
  ms.foldl insertGrouped []

/-- The HELP comment line for a metric name. -/
def helpLine (n help : String) : List Char :=
  "# HELP ".toList ++ n.toList ++ ' ' :: help.toList

/-- The TYPE comment line for a metric name. -/
def typeLine (n ty : String) : List Char :=
  "# TYPE ".toList ++ n.toList ++ ' ' :: ty.toList

/-- The output lines of one name group: HELP and TYPE once (taken from the
first metric of the group — the `processed_metrics` set in the code is
always hit first-time per name because dictionary keys are unique), then one
sample line per metric.  A group is never empty. -/
def formatGroup (vr : ℚ → List Char) (g : String × List PrometheusMetric) :
    List (List Char) :=
  match g.2 with
  | [] => []
  | m0 :: _ =>
    helpLine g.1 m0.helpText :: typeLine g.1 m0.metricType ::
      g.2.map (formatMetricLine vr)

/-- Embeds `MetricsTransformer.format_prometheus_metrics`
(metrics_transformer.py lines 174-221): empty input yields the empty
document; otherwise the grouped lines joined by newlines with a final
newline appended. -/
def formatPrometheus (vr : ℚ → List Char) (ms : List PrometheusMetric) :
    List Char :=
  if ms.isEmpty then []
  else joinNl ((groupByName ms).flatMap (formatGroup vr)) ++ ['\n']

/-- String-typed entry point of the formatter. -/
def formatPrometheusString (vr : ℚ → List Char) (ms : List PrometheusMetric) :
    String :=
  String.mk (formatPrometheus vr ms)

/-! ### A parser for the exposition text (the spec side of the round trip) -/

/-- Splits a character list on newlines (an empty document is one empty
line, matching `str.split`). -/
def splitOnNl : List Char → List (List Char)
  | [] => [[]]
  | c :: t =>
    if c = '\n' then [] :: splitOnNl t
    else
      match splitOnNl t with
      | [] => [[c]]
      | l :: ls => (c :: l) :: ls

/-- Reads a quoted label value up to its closing quote, undoing backslash
escapes; returns the value and the remainder after the closing quote. -/
def parseQuoted : List Char → Option (List Char × List Char)
  | [] => none
  | c :: rest =>
    if c = '"' then some ([], rest)
    else if c = '\\' then
      match rest with
      | [] => none
      | c2 :: r2 =>
        match parseQuoted r2 with
        | some (v, r3) => some (c2 :: v, r3)
        | none => none
    else
      match parseQuoted rest with
      | some (v, r3) => some (c :: v, r3)
      | none => none

/-- Reads `key="value"` pairs separated by commas up to the closing brace;
returns the pairs and the remainder after the brace.  Fuel bounds the number
of pairs. -/
def parsePairsF : Nat → List Char → Option (List (String × String) × List Char)
  | 0, _ => none
  | fuel + 1, l =>
    match l.dropWhile (fun c => c != '=') with
    | '=' :: '"' :: r =>
      match parseQuoted r with
      | some (v, r2) =>
        match r2 with
        | ',' :: r3 =>
          match parsePairsF fuel r3 with
          | some (ps, r4) =>
            some ((String.mk (l.takeWhile (fun c => c != '=')), String.mk v) :: ps, r4)
          | none => none
        | '}' :: r3 =>
          some ([(String.mk (l.takeWhile (fun c => c != '=')), String.mk v)], r3)
        | _ => none
      | none => none
    | _ => none

/-- The (name, labels, value-text) triple a parsed sample line denotes. -/
def ExpoTriple : Type := String × List (String × String) × String

instance : DecidableEq ExpoTriple := by
  unfold ExpoTriple
  infer_instance

/-- Parses one sample line: metric name up to a brace or space, an optional
brace-delimited label block, a space, then the value text (the rest of the
line). -/
def parseSampleLine (l : List Char) : Option ExpoTriple :=
  match l.dropWhile (fun c => c != '{' && c != ' ') with
  | ' ' :: rest =>
    some (String.mk (l.takeWhile (fun c => c != '{' && c != ' ')), [], String.mk rest)
  | '{' :: rest =>
    match parsePairsF (rest.length + 1) rest with
    | some (ps, r2) =>
      match r2 with
      | ' ' :: v =>
        some (String.mk (l.takeWhile (fun c => c != '{' && c != ' ')), ps, String.mk v)
      | _ => none
    | none => none
  | _ => none

/-- Classifies one line of the document: blank lines and `#` comment lines
(HELP/TYPE) carry no sample; anything else is parsed as a sample line. -/
def parseLine (line : List Char) : Option ExpoTriple :=
  match line with
  | [] => none
  | c :: _ => if c = '#' then none else parseSampleLine line

/-- Parses a whole exposition document: split into lines, skip blank lines
and `#` comment lines (HELP/TYPE), parse each sample line. -/
def parseExposition (s : List Char) : List ExpoTriple :=
  (splitOnNl s).filterMap parseLine

/-- The triple a metric should round-trip to: its name, its label set in the
rendered (sorted) order, and its rendered value text. -/
def metricTriple (vr : ℚ → List Char) (m : PrometheusMetric) : ExpoTriple :=
  (m.name, sortPairs m.labels, String.mk (vr m.value))

/-- Characters allowed in metric names and label keys
(`[a-zA-Z0-9_:]`, the Prometheus identifier alphabet). -/
def nameCharOk (c : Char) : Bool :=
  (c ≥ 'a' && c ≤ 'z') || (c ≥ 'A' && c ≤ 'Z') || (c ≥ '0' && c ≤ '9') ||
    c = '_' || c = ':'

/-- A well-formed metric name: non-empty, drawn from the identifier
alphabet. -/
def NameOk (s : String) : Prop :=
  s.toList ≠ [] ∧ ∀ c ∈ s.toList, nameCharOk c = true

/-- Free of newlines (help text, type text, label values). -/
def NoNl (s : String) : Prop := '\n' ∉ s.toList

/-- A well-formed metric record for the exposition format: identifier name,
newline-free help and type, identifier label keys, newline-free label
values. -/
def MetricOk (m : PrometheusMetric) : Prop :=
  NameOk m.name ∧ NoNl m.helpText ∧ NoNl m.metricType ∧
    ∀ kv ∈ m.labels, (∀ c ∈ kv.1.toList, nameCharOk c = true) ∧ NoNl kv.2

/-- A well-formed value renderer: never emits a newline. -/
def VrOk (vr : ℚ → List Char) : Prop := ∀ q, '\n' ∉ vr q

/-! ### Round-trip lemmas -/

theorem strMk_toList (s : String) : String.mk s.toList = s := by
  cases s
  rfl

theorem takeWhile_append_sat {p : Char → Bool} (xs : List Char) (y : Char)
    (rest : List Char) (hxs : ∀ c ∈ xs, p c = true) (hy : p y = false) :
    (xs ++ y :: rest).takeWhile p = xs ∧
      (xs ++ y :: rest).dropWhile p = y :: rest := by
  induction xs with
  | nil => simp [List.takeWhile_cons, List.dropWhile_cons, hy]
  | cons a t ih =>
    have ha := hxs a (by simp)
    have ih2 := ih (fun c hc => hxs c (by simp [hc]))
    simp [List.takeWhile_cons, List.dropWhile_cons, ha, ih2.1, ih2.2]

theorem parseQuoted_escape (v rest : List Char) :
    parseQuoted (escapeLabelValue v ++ '"' :: rest) = some (v, rest) := by
  induction v with
  | nil =>
    show parseQuoted ('"' :: rest) = some ([], rest)
    unfold parseQuoted
    simp
  | cons c t ih =>
    by_cases h1 : c = '\\'
    · subst h1
      have he : escapeLabelValue ('\\' :: t) ++ '"' :: rest =
          '\\' :: '\\' :: (escapeLabelValue t ++ '"' :: rest) := by
        simp [escapeLabelValue]
      rw [he]
      unfold parseQuoted
      simp [ih]
    · by_cases h2 : c = '"'
      · subst h2
        have he : escapeLabelValue ('"' :: t) ++ '"' :: rest =
            '\\' :: '"' :: (escapeLabelValue t ++ '"' :: rest) := by
          simp [escapeLabelValue]
        rw [he]
        unfold parseQuoted
        simp [ih]
      · have he : escapeLabelValue (c :: t) ++ '"' :: rest =
            c :: (escapeLabelValue t ++ '"' :: rest) := by
          simp [escapeLabelValue, h1, h2]
        rw [he]
        unfold parseQuoted
        simp [ih, h1, h2]

theorem escape_no_nl (v : List Char) (hv : '\n' ∉ v) :
    '\n' ∉ escapeLabelValue v := by
  induction v with
  | nil => simp [escapeLabelValue]
  | cons c t ih =>
    have ht := ih (fun h => hv (List.mem_cons_of_mem _ h))
    have hcne : ¬ ('\n' : Char) = c := fun h => hv (h ▸ List.mem_cons_self c t)
    intro hmem
    by_cases h1 : c = '\\'
    · rw [show escapeLabelValue (c :: t) = '\\' :: '\\' :: escapeLabelValue t by
        simp [escapeLabelValue, h1]] at hmem
      simp only [List.mem_cons] at hmem
      have hin : '\n' ∈ escapeLabelValue t := by
        rcases hmem with h | h | h
        · exact absurd h (by decide)
        · exact absurd h (by decide)
        · exact h
      exact ht hin
    · by_cases h2 : c = '"'
      · rw [show escapeLabelValue (c :: t) = '\\' :: '"' :: escapeLabelValue t by
          simp [escapeLabelValue, h1, h2]] at hmem
        simp only [List.mem_cons] at hmem
        have hin : '\n' ∈ escapeLabelValue t := by
          rcases hmem with h | h | h
          · exact absurd h (by decide)
          · exact absurd h (by decide)
          · exact h
        exact ht hin
      · rw [show escapeLabelValue (c :: t) = c :: escapeLabelValue t by
          simp [escapeLabelValue, h1, h2]] at hmem
        simp only [List.mem_cons] at hmem
        rcases hmem with h | h
        · exact hcne h
        · exact ht h

theorem splitOnNl_append (l rest : List Char) (hl : '\n' ∉ l) :
    splitOnNl (l ++ '\n' :: rest) = l :: splitOnNl rest := by
  induction l with
  | nil => simp [splitOnNl]
  | cons c t ih =>
    have hc : ¬ c = '\n' := fun h => hl (by simp [h])
    have ht : '\n' ∉ t := fun h => hl (by simp [h])
    show splitOnNl (c :: (t ++ '\n' :: rest)) = (c :: t) :: splitOnNl rest
    simp only [splitOnNl, if_neg hc, ih ht]

theorem splitOnNl_joinNl (lines : List (List Char)) (hne : lines ≠ [])
    (hnl : ∀ l ∈ lines, '\n' ∉ l) :
    splitOnNl (joinNl lines ++ ['\n']) = lines ++ [[]] := by
  induction lines with
  | nil => exact absurd rfl hne
  | cons x xs ih =>
    cases xs with
    | nil =>
      have := splitOnNl_append x [] (hnl x (by simp))
      simpa [joinNl] using this
    | cons y ys =>
      have hx : '\n' ∉ x := hnl x (by simp)
      have hstep : joinNl (x :: y :: ys) ++ ['\n'] =
          x ++ '\n' :: (joinNl (y :: ys) ++ ['\n']) := by
        show (x ++ '\n' :: joinNl (y :: ys)) ++ ['\n'] = _
        rw [List.append_assoc]
        rfl
      rw [hstep, splitOnNl_append x _ hx,
        ih (by simp) (fun l hl => hnl l (by simp [hl]))]
      rfl

theorem insertPair_perm (p : String × String) (l : List (String × String)) :
    (insertPair p l).Perm (p :: l) := by
  induction l with
  | nil => exact List.Perm.refl _
  | cons q qs ih =>
    by_cases h : pairLe p q
    · simp only [insertPair, if_pos h]
      exact List.Perm.refl _
    · simp only [insertPair, if_neg h]
      exact List.Perm.trans (List.Perm.cons q ih) (List.Perm.swap p q qs)

theorem sortPairs_perm (l : List (String × String)) : (sortPairs l).Perm l := by
  induction l with
  | nil => exact List.Perm.refl _
  | cons x xs ih =>
    exact List.Perm.trans (insertPair_perm x (sortPairs xs)) (List.Perm.cons x ih)

theorem nameCharOk_props (c : Char) (h : nameCharOk c = true) :
    (c != '=') = true ∧ (c != '{' && c != ' ') = true := by
  constructor
  · by_cases hc : c = '='
    · rw [hc] at h
      exact absurd h (by decide)
    · simp [bne_iff_ne, hc]
  · by_cases hc : c = '{'
    · rw [hc] at h
      exact absurd h (by decide)
    · by_cases hc2 : c = ' '
      · rw [hc2] at h
        exact absurd h (by decide)
      · simp [bne_iff_ne, hc, hc2]

theorem nameCharOk_not_hash (c : Char) (h : nameCharOk c = true) : ¬ c = '#' := by
  intro hc
  rw [hc] at h
  exact absurd h (by decide)

theorem nameCharOk_not_nl (c : Char) (h : nameCharOk c = true) : ¬ c = '\n' := by
  intro hc
  rw [hc] at h
  exact absurd h (by decide)

theorem joinComma_length_ge (ps : List (String × String)) (hne : ps ≠ []) :
    ps.length ≤ (joinComma (ps.map renderLabelPair)).length := by
  induction ps with
  | nil => exact absurd rfl hne
  | cons p t ih =>
    cases t with
    | nil =>
      simp only [List.map, joinComma, List.length_cons, List.length_nil,
        renderLabelPair, List.length_append]
      omega
    | cons q r =>
      have h1 : joinComma ((p :: q :: r).map renderLabelPair) =
          renderLabelPair p ++ ',' :: joinComma ((q :: r).map renderLabelPair) := rfl
      rw [h1, List.length_append, List.length_cons]
      have h2 := ih (by simp)
      simp only [List.length_cons] at h2 ⊢
      omega

theorem parsePairsF_render (ps : List (String × String))
    (hkeys : ∀ kv ∈ ps, ∀ c ∈ kv.1.toList, (c != '=') = true) :
    ∀ (rest : List Char) (fuel : Nat), ps ≠ [] → ps.length ≤ fuel →
      parsePairsF fuel (joinComma (ps.map renderLabelPair) ++ '}' :: rest) =
        some (ps, rest) := by
  induction ps with
  | nil =>
    intro rest fuel hne
    exact absurd rfl hne
  | cons p t ih =>
    intro rest fuel hne hf
    obtain ⟨f2, rfl⟩ : ∃ f2, fuel = f2 + 1 := ⟨fuel - 1, by simp at hf; omega⟩
    have hkp : ∀ c ∈ p.1.toList, ((c != '=') : Bool) = true := fun c hc =>
      hkeys p (by simp) c hc
    cases t with
    | nil =>
      have hform : joinComma ([p].map renderLabelPair) ++ '}' :: rest =
          p.1.toList ++ '=' :: '"' ::
            (escapeLabelValue p.2.toList ++ '"' :: '}' :: rest) := by
        simp [joinComma, renderLabelPair]
      rw [hform]
      have hdw := takeWhile_append_sat p.1.toList '='
        ('"' :: (escapeLabelValue p.2.toList ++ '"' :: '}' :: rest)) hkp (by decide)
      simp only [parsePairsF, hdw.1, hdw.2, parseQuoted_escape, strMk_toList,
        Prod.mk.eta]
    | cons q r =>
      have hform : joinComma ((p :: q :: r).map renderLabelPair) ++ '}' :: rest =
          p.1.toList ++ '=' :: '"' ::
            (escapeLabelValue p.2.toList ++ '"' :: ',' ::
              (joinComma ((q :: r).map renderLabelPair) ++ '}' :: rest)) := by
        show (renderLabelPair p ++ ',' :: joinComma ((q :: r).map renderLabelPair))
            ++ '}' :: rest = _
        simp [renderLabelPair, List.append_assoc]
      rw [hform]
      have hdw := takeWhile_append_sat p.1.toList '='
        ('"' :: (escapeLabelValue p.2.toList ++ '"' :: ',' ::
          (joinComma ((q :: r).map renderLabelPair) ++ '}' :: rest))) hkp (by decide)
      have hih := ih (fun kv hkv => hkeys kv (by simp [hkv])) rest f2 (by simp)
        (by simp at hf ⊢; omega)
      simp only [parsePairsF, hdw.1, hdw.2, parseQuoted_escape, hih, strMk_toList,
        Prod.mk.eta]

theorem parseSampleLine_format (vr : ℚ → List Char) (m : PrometheusMetric)
    (hname : NameOk m.name)
    (hkeys : ∀ kv ∈ m.labels, ∀ c ∈ kv.1.toList, nameCharOk c = true) :
    parseSampleLine (formatMetricLine vr m) = some (metricTriple vr m) := by
  have hnchars : ∀ c ∈ m.name.toList, ((c != '{' && c != ' ') : Bool) = true :=
    fun c hc => (nameCharOk_props c (hname.2 c hc)).2
  by_cases hlab : m.labels.isEmpty
  · have hlabnil : m.labels = [] := by
      cases hl : m.labels
      · rfl
      · rw [hl] at hlab
        simp at hlab
    have hline : formatMetricLine vr m = m.name.toList ++ ' ' :: vr m.value := by
      simp [formatMetricLine, hlab]
    rw [hline]
    have hdw := takeWhile_append_sat m.name.toList ' ' (vr m.value) hnchars (by decide)
    simp only [parseSampleLine, hdw.1, hdw.2, strMk_toList, metricTriple, hlabnil]
    rfl
  · have hsne : sortPairs m.labels ≠ [] := by
      intro h
      have hp := sortPairs_perm m.labels
      rw [h] at hp
      have hnil : m.labels = [] := hp.symm.eq_nil
      rw [hnil] at hlab
      simp at hlab
    have hline : formatMetricLine vr m = m.name.toList ++ '{' ::
        (joinComma ((sortPairs m.labels).map renderLabelPair) ++
          '}' :: ' ' :: vr m.value) := by
      simp [formatMetricLine, hlab]
    rw [hline]
    have hdw := takeWhile_append_sat m.name.toList '{'
      (joinComma ((sortPairs m.labels).map renderLabelPair) ++
        '}' :: ' ' :: vr m.value) hnchars (by decide)
    have hskeys : ∀ kv ∈ sortPairs m.labels, ∀ c ∈ kv.1.toList, (c != '=') = true :=
      fun kv hkv c hc =>
        (nameCharOk_props c
          (hkeys kv ((sortPairs_perm m.labels).mem_iff.mp hkv) c hc)).1
    have hflen : (sortPairs m.labels).length ≤
        (joinComma ((sortPairs m.labels).map renderLabelPair) ++
          '}' :: ' ' :: vr m.value).length + 1 := by
      have h1 := joinComma_length_ge (sortPairs m.labels) hsne
      rw [List.length_append]
      omega
    have hpp := parsePairsF_render (sortPairs m.labels) hskeys
      (' ' :: vr m.value)
      ((joinComma ((sortPairs m.labels).map renderLabelPair) ++
        '}' :: ' ' :: vr m.value).length + 1) hsne hflen
    have hshape : joinComma ((sortPairs m.labels).map renderLabelPair) ++
        '}' :: ' ' :: vr m.value =
        joinComma ((sortPairs m.labels).map renderLabelPair) ++
          '}' :: (' ' :: vr m.value) := rfl
    simp only [parseSampleLine, hdw.1, hdw.2, hshape, hpp, strMk_toList, metricTriple]


theorem parseLine_eq_sample (n : String) (tail : List Char) (h : NameOk n) :
    parseLine (n.toList ++ tail) = parseSampleLine (n.toList ++ tail) := by
  obtain ⟨hne, hchars⟩ := h
  cases hn : n.toList with
  | nil => exact absurd hn hne
  | cons c0 cr =>
    have hc0 : nameCharOk c0 = true := hchars c0 (by rw [hn]; exact List.mem_cons_self _ _)
    simp only [List.cons_append, parseLine, if_neg (nameCharOk_not_hash c0 hc0)]

theorem parseLine_format (vr : ℚ → List Char) (m : PrometheusMetric)
    (hwf : MetricOk m) :
    parseLine (formatMetricLine vr m) = some (metricTriple vr m) := by
  have heq : parseLine (formatMetricLine vr m) =
      parseSampleLine (formatMetricLine vr m) := by
    unfold formatMetricLine
    by_cases hl : m.labels.isEmpty
    · rw [if_pos hl]
      exact parseLine_eq_sample m.name _ hwf.1
    · rw [if_neg hl]
      exact parseLine_eq_sample m.name _ hwf.1
  rw [heq]
  exact parseSampleLine_format vr m hwf.1 (fun kv hkv => (hwf.2.2.2 kv hkv).1)

theorem parseLine_helpLine (n h : String) : parseLine (helpLine n h) = none := rfl

theorem parseLine_typeLine (n ty : String) : parseLine (typeLine n ty) = none := rfl

theorem joinComma_mem (c : Char) (L : List (List Char)) (hc : c ∈ joinComma L) :
    (∃ x ∈ L, c ∈ x) ∨ c = ',' := by
  induction L with
  | nil => simp [joinComma] at hc
  | cons x xs ih =>
    cases xs with
    | nil => exact Or.inl ⟨x, by simp, hc⟩
    | cons y ys =>
      rw [show joinComma (x :: y :: ys) = x ++ ',' :: joinComma (y :: ys) from rfl] at hc
      rcases List.mem_append.mp hc with h | h
      · exact Or.inl ⟨x, by simp, h⟩
      · rcases List.mem_cons.mp h with h2 | h2
        · exact Or.inr h2
        · rcases ih h2 with ⟨z, hz, hcz⟩ | h3
          · exact Or.inl ⟨z, by simp [hz], hcz⟩
          · exact Or.inr h3

theorem renderLabelPair_no_nl (kv : String × String)
    (hk : ∀ c ∈ kv.1.toList, nameCharOk c = true) (hv : NoNl kv.2) :
    '\n' ∉ renderLabelPair kv := by
  intro hmem
  unfold renderLabelPair at hmem
  rcases List.mem_append.mp hmem with h | h
  · exact nameCharOk_not_nl _ (hk _ h) rfl
  · rcases List.mem_cons.mp h with h2 | h2
    · exact absurd h2 (by decide)
    · rcases List.mem_cons.mp h2 with h3 | h3
      · exact absurd h3 (by decide)
      · rcases List.mem_append.mp h3 with h4 | h4
        · exact escape_no_nl kv.2.toList hv h4
        · rcases List.mem_cons.mp h4 with h5 | h5
          · exact absurd h5 (by decide)
          · simp at h5

theorem formatMetricLine_no_nl (vr : ℚ → List Char) (m : PrometheusMetric)
    (hvr : VrOk vr) (hwf : MetricOk m) : '\n' ∉ formatMetricLine vr m := by
  intro hmem
  have hname : ∀ c ∈ m.name.toList, nameCharOk c = true := hwf.1.2
  unfold formatMetricLine at hmem
  by_cases hl : m.labels.isEmpty
  · rw [if_pos hl] at hmem
    rcases List.mem_append.mp hmem with h | h
    · exact nameCharOk_not_nl _ (hname _ h) rfl
    · rcases List.mem_cons.mp h with h2 | h2
      · exact absurd h2 (by decide)
      · exact hvr m.value h2
  · rw [if_neg hl] at hmem
    rcases List.mem_append.mp hmem with h | h
    · exact nameCharOk_not_nl _ (hname _ h) rfl
    · rcases List.mem_cons.mp h with h2 | h2
      · exact absurd h2 (by decide)
      · rcases List.mem_append.mp h2 with h3 | h3
        · rcases joinComma_mem _ _ h3 with ⟨x, hx, hcx⟩ | h4
          · rcases List.mem_map.mp hx with ⟨kv, hkv, rfl⟩
            have hkvin : kv ∈ m.labels := (sortPairs_perm m.labels).mem_iff.mp hkv
            exact renderLabelPair_no_nl kv
              (fun c hc => (hwf.2.2.2 kv hkvin).1 c hc)
              (hwf.2.2.2 kv hkvin).2 hcx
          · exact absurd h4 (by decide)
        · rcases List.mem_cons.mp h3 with h4 | h4
          · exact absurd h4 (by decide)
          · rcases List.mem_cons.mp h4 with h5 | h5
            · exact absurd h5 (by decide)
            · exact hvr m.value h5

theorem helpLine_no_nl (n h : String)
    (hn : ∀ c ∈ n.toList, nameCharOk c = true) (hh : NoNl h) :
    '\n' ∉ helpLine n h := by
  intro hmem
  unfold helpLine at hmem
  rcases List.mem_append.mp hmem with h1 | h1
  · rcases List.mem_append.mp h1 with h2 | h2
    · exact absurd h2 (by decide)
    · exact nameCharOk_not_nl _ (hn _ h2) rfl
  · rcases List.mem_cons.mp h1 with h2 | h2
    · exact absurd h2 (by decide)
    · exact hh h2

theorem typeLine_no_nl (n ty : String)
    (hn : ∀ c ∈ n.toList, nameCharOk c = true) (hty : NoNl ty) :
    '\n' ∉ typeLine n ty := by
  intro hmem
  unfold typeLine at hmem
  rcases List.mem_append.mp hmem with h1 | h1
  · rcases List.mem_append.mp h1 with h2 | h2
    · exact absurd h2 (by decide)
    · exact nameCharOk_not_nl _ (hn _ h2) rfl
  · rcases List.mem_cons.mp h1 with h2 | h2
    · exact absurd h2 (by decide)
    · exact hty h2


theorem insertGrouped_flatMap (acc : List (String × List PrometheusMetric))
    (m : PrometheusMetric) :
    ((insertGrouped acc m).flatMap (fun g => g.2)).Perm
      (acc.flatMap (fun g => g.2) ++ [m]) := by
  induction acc with
  | nil => simp [insertGrouped]
  | cons g gs ih =>
    by_cases h : g.1 = m.name
    · simp only [insertGrouped, if_pos h, List.flatMap_cons]
      have he1 : (g.2 ++ [m]) ++ gs.flatMap (fun g => g.2) =
          g.2 ++ ([m] ++ gs.flatMap (fun g => g.2)) := by
        rw [List.append_assoc]
      have he2 : (g.2 ++ gs.flatMap (fun g => g.2)) ++ [m] =
          g.2 ++ (gs.flatMap (fun g => g.2) ++ [m]) := by
        rw [List.append_assoc]
      rw [he1, he2]
      exact List.Perm.append_left g.2 List.perm_append_comm
    · simp only [insertGrouped, if_neg h, List.flatMap_cons]
      have he2 : (g.2 ++ gs.flatMap (fun g => g.2)) ++ [m] =
          g.2 ++ (gs.flatMap (fun g => g.2) ++ [m]) := by
        rw [List.append_assoc]
      rw [he2]
      exact List.Perm.append_left g.2 ih

theorem foldl_insertGrouped_flatMap (ms : List PrometheusMetric) :
    ∀ acc, ((ms.foldl insertGrouped acc).flatMap (fun g => g.2)).Perm
      (acc.flatMap (fun g => g.2) ++ ms) := by
  induction ms with
  | nil =>
    intro acc
    simp
  | cons m t ih =>
    intro acc
    simp only [List.foldl_cons]
    have h1 := ih (insertGrouped acc m)
    have h2 := (insertGrouped_flatMap acc m).append_right t
    have h3 : (acc.flatMap (fun g => g.2) ++ [m]) ++ t =
        acc.flatMap (fun g => g.2) ++ m :: t := by
      rw [List.append_assoc]
      rfl
    rw [h3] at h2
    exact h1.trans h2

theorem groupByName_flatMap_perm (ms : List PrometheusMetric) :
    ((groupByName ms).flatMap (fun g => g.2)).Perm ms := by
  have := foldl_insertGrouped_flatMap ms []
  simpa [groupByName] using this

theorem insertGrouped_names (acc : List (String × List PrometheusMetric))
    (m : PrometheusMetric)
    (h : ∀ g ∈ acc, ∀ m2 ∈ g.2, m2.name = g.1) :
    ∀ g ∈ insertGrouped acc m, ∀ m2 ∈ g.2, m2.name = g.1 := by
  induction acc with
  | nil =>
    intro g hg m2 hm2
    simp only [insertGrouped, List.mem_singleton] at hg
    subst hg
    simp only [List.mem_singleton] at hm2
    subst hm2
    rfl
  | cons g0 gs ih =>
    intro g hg m2 hm2
    by_cases hname : g0.1 = m.name
    · simp only [insertGrouped, if_pos hname, List.mem_cons] at hg
      rcases hg with hg | hg
      · subst hg
        simp only at hm2
        rcases List.mem_append.mp hm2 with h2 | h2
        · exact h g0 (by simp) m2 h2
        · simp only [List.mem_singleton] at h2
          subst h2
          exact hname.symm
      · exact h g (by simp [hg]) m2 hm2
    · simp only [insertGrouped, if_neg hname, List.mem_cons] at hg
      rcases hg with hg | hg
      · subst hg
        exact h g (by simp) m2 hm2
      · exact ih (fun g2 hg2 m3 hm3 => h g2 (by simp [hg2]) m3 hm3) g hg m2 hm2

theorem groupByName_names (ms : List PrometheusMetric) :
    ∀ g ∈ groupByName ms, ∀ m2 ∈ g.2, m2.name = g.1 := by
  have hgen : ∀ acc, (∀ g ∈ acc, ∀ m2 ∈ g.2, m2.name = g.1) →
      ∀ g ∈ ms.foldl insertGrouped acc, ∀ m2 ∈ g.2, m2.name = g.1 := by
    induction ms with
    | nil => intro acc hacc; exact hacc
    | cons m t ih =>
      intro acc hacc
      simp only [List.foldl_cons]
      exact ih (insertGrouped acc m) (insertGrouped_names acc m hacc)
  exact hgen [] (by simp)

theorem insertGrouped_nonempty (acc : List (String × List PrometheusMetric))
    (m : PrometheusMetric) (h : ∀ g ∈ acc, g.2 ≠ []) :
    ∀ g ∈ insertGrouped acc m, g.2 ≠ [] := by
  induction acc with
  | nil =>
    intro g hg
    simp only [insertGrouped, List.mem_singleton] at hg
    subst hg
    simp
  | cons g0 gs ih =>
    intro g hg
    by_cases hname : g0.1 = m.name
    · simp only [insertGrouped, if_pos hname, List.mem_cons] at hg
      rcases hg with hg | hg
      · subst hg
        simp
      · exact h g (by simp [hg])
    · simp only [insertGrouped, if_neg hname, List.mem_cons] at hg
      rcases hg with hg | hg
      · subst hg
        exact h g (by simp)
      · exact ih (fun g2 hg2 => h g2 (by simp [hg2])) g hg

theorem groupByName_nonempty (ms : List PrometheusMetric) :
    ∀ g ∈ groupByName ms, g.2 ≠ [] := by
  have hgen : ∀ acc, (∀ g ∈ acc, g.2 ≠ []) →
      ∀ g ∈ ms.foldl insertGrouped acc, g.2 ≠ [] := by
    induction ms with
    | nil => intro acc hacc; exact hacc
    | cons m t ih =>
      intro acc hacc
      simp only [List.foldl_cons]
      exact ih (insertGrouped acc m) (insertGrouped_nonempty acc m hacc)
  exact hgen [] (by simp)

theorem filterMap_parseLine_samples (vr : ℚ → List Char)
    (l : List PrometheusMetric) (hwf : ∀ m ∈ l, MetricOk m) :
    (l.map (formatMetricLine vr)).filterMap parseLine =
      l.map (metricTriple vr) := by
  induction l with
  | nil => simp
  | cons m t ih =>
    simp only [List.map_cons, List.filterMap_cons,
      parseLine_format vr m (hwf m (by simp))]
    rw [ih (fun m2 hm2 => hwf m2 (by simp [hm2]))]

theorem formatGroup_filterMap (vr : ℚ → List Char)
    (g : String × List PrometheusMetric) (hne : g.2 ≠ [])
    (hwf : ∀ m ∈ g.2, MetricOk m) :
    (formatGroup vr g).filterMap parseLine = g.2.map (metricTriple vr) := by
  obtain ⟨n, l⟩ := g
  cases l with
  | nil => exact absurd rfl hne
  | cons m0 rest =>
    show (helpLine n m0.helpText :: typeLine n m0.metricType ::
      (m0 :: rest).map (formatMetricLine vr)).filterMap parseLine = _
    rw [List.filterMap_cons, parseLine_helpLine, List.filterMap_cons,
      parseLine_typeLine]
    exact filterMap_parseLine_samples vr (m0 :: rest) hwf

theorem formatGroup_no_nl (vr : ℚ → List Char)
    (g : String × List PrometheusMetric) (hvr : VrOk vr)
    (hwf : ∀ m ∈ g.2, MetricOk m)
    (hnames : ∀ m ∈ g.2, m.name = g.1) :
    ∀ l ∈ formatGroup vr g, '\n' ∉ l := by
  obtain ⟨n, l⟩ := g
  cases l with
  | nil => simp [formatGroup]
  | cons m0 rest =>
    have hm0 := hwf m0 (by simp)
    have hn0 : m0.name = n := hnames m0 (by simp)
    have hnchars : ∀ c ∈ n.toList, nameCharOk c = true := by
      rw [← hn0]
      exact hm0.1.2
    intro l2 hl2
    show '\n' ∉ l2
    rcases List.mem_cons.mp hl2 with h | h
    · subst h
      exact helpLine_no_nl n m0.helpText hnchars hm0.2.1
    · rcases List.mem_cons.mp h with h2 | h2
      · subst h2
        exact typeLine_no_nl n m0.metricType hnchars hm0.2.2.1
      · rcases List.mem_map.mp h2 with ⟨m2, hm2, rfl⟩
        exact formatMetricLine_no_nl vr m2 hvr (hwf m2 hm2)


/-- Claim C7: for every well-formed metric record list (identifier names,
newline-free help/type texts and label values, identifier label keys) and
every newline-free value rendering, formatting via
`format_prometheus_metrics` and parsing the exposition text back yields
exactly the same (name, labels, value) triples — as a permutation, since the
formatter groups samples of one name under a single HELP/TYPE block emitted
at the name's first occurrence — with labels in sorted order (a permutation
of the record's labels, values escaped and braces omitted when empty); and
an empty record list formats to the empty string. -/
theorem formatPrometheus_roundTrip (vr : ℚ → List Char)
    (ms : List PrometheusMetric) (hvr : VrOk vr) (hms : ∀ m ∈ ms, MetricOk m) :
    (parseExposition (formatPrometheus vr ms)).Perm
      (ms.map (metricTriple vr)) ∧
    formatPrometheusString vr [] = "" ∧
    (∀ m ∈ ms, (sortPairs m.labels).Perm m.labels) := by
  refine ⟨?_, rfl, fun m _ => sortPairs_perm m.labels⟩
  by_cases hempty : ms.isEmpty
  · have hnil : ms = [] := by
      cases ms with
      | nil => rfl
      | cons a t => simp at hempty
    rw [hnil]
    exact List.Perm.nil
  · have hgmem : ∀ g ∈ groupByName ms, ∀ m ∈ g.2, m ∈ ms := by
      intro g hg m hm
      have hin : m ∈ (groupByName ms).flatMap (fun g => g.2) :=
        List.mem_flatMap.mpr ⟨g, hg, hm⟩
      exact (groupByName_flatMap_perm ms).mem_iff.mp hin
    have hlines_nl : ∀ l ∈ (groupByName ms).flatMap (formatGroup vr), '\n' ∉ l := by
      intro l hl
      rcases List.mem_flatMap.mp hl with ⟨g, hg, hlg⟩
      exact formatGroup_no_nl vr g hvr (fun m hm => hms m (hgmem g hg m hm))
        (groupByName_names ms g hg) l hlg
    have hgne : groupByName ms ≠ [] := by
      intro h
      have hp := groupByName_flatMap_perm ms
      rw [h] at hp
      simp only [List.flatMap_nil] at hp
      have : ms = [] := hp.symm.eq_nil
      rw [this] at hempty
      simp at hempty
    have hlines_ne : (groupByName ms).flatMap (formatGroup vr) ≠ [] := by
      cases hgs : groupByName ms with
      | nil => exact absurd hgs hgne
      | cons g gs =>
        have hne2 : g.2 ≠ [] := groupByName_nonempty ms g (by rw [hgs]; simp)
        intro hnil
        rw [List.flatMap_cons] at hnil
        have hfg : formatGroup vr g = [] := (List.append_eq_nil.mp hnil).1
        obtain ⟨n, l⟩ := g
        cases l with
        | nil => exact hne2 rfl
        | cons m0 rest => exact List.noConfusion hfg
    have hfmt : formatPrometheus vr ms =
        joinNl ((groupByName ms).flatMap (formatGroup vr)) ++ ['\n'] := by
      simp [formatPrometheus, hempty]
    rw [hfmt]
    unfold parseExposition
    rw [splitOnNl_joinNl _ hlines_ne hlines_nl, List.filterMap_append]
    have hlast : ([[]] : List (List Char)).filterMap parseLine = [] := rfl
    rw [hlast, List.append_nil]
    have hgen : ∀ L : List (String × List PrometheusMetric),
        (∀ g ∈ L, g.2 ≠ []) → (∀ g ∈ L, ∀ m ∈ g.2, MetricOk m) →
        (L.flatMap (formatGroup vr)).filterMap parseLine =
          L.flatMap (fun g => g.2.map (metricTriple vr)) := by
      intro L
      induction L with
      | nil =>
        intro h1 h2
        simp
      | cons g gs ih =>
        intro hne hwf
        rw [List.flatMap_cons, List.filterMap_append,
          formatGroup_filterMap vr g (hne g (by simp))
            (fun m hm => hwf g (by simp) m hm),
          ih (fun g2 hg2 => hne g2 (by simp [hg2]))
            (fun g2 hg2 => hwf g2 (by simp [hg2])),
          List.flatMap_cons]
    rw [hgen (groupByName ms) (groupByName_nonempty ms)
      (fun g hg m hm => hms m (hgmem g hg m hm))]
    have hmapflat : (groupByName ms).flatMap (fun g => g.2.map (metricTriple vr)) =
        ((groupByName ms).flatMap (fun g => g.2)).map (metricTriple vr) := by
      generalize groupByName ms = L
      induction L with
      | nil => simp
      | cons g gs ih => simp [List.flatMap_cons, ih]
    rw [hmapflat]
    exact (groupByName_flatMap_perm ms).map (metricTriple vr)

/-- A constant value renderer standing in for Python float formatting in the
concrete witness run. -/
def vrConst : ℚ → List Char := fun _ => ['1', '.', '0']

/-- A concrete one-record metric list for the witness run. -/
def msExample : List PrometheusMetric :=
  [{ name := "afs_up", value := 1, labels := [("zone", "z1")]
     helpText := "Zone up indicator", metricType := "gauge" }]

/-- Witness for claim C7: the round trip evaluated at a concrete record. -/
theorem formatPrometheus_roundTrip_witness :
    (parseExposition (formatPrometheus vrConst msExample)).Perm
      (msExample.map (metricTriple vrConst)) ∧
    formatPrometheusString vrConst [] = "" := by
  have h := formatPrometheus_roundTrip vrConst msExample
    (fun q => (by decide : ('\n' : Char) ∉ ['1', '.', '0']))
    (by
      intro m hm
      simp only [msExample, List.mem_singleton] at hm
      subst hm
      refine ⟨⟨by decide, by decide⟩,
        (by decide : ('\n' : Char) ∉ ("Zone up indicator" : String).toList),
        (by decide : ('\n' : Char) ∉ ("gauge" : String).toList), ?_⟩
      intro kv hkv
      simp only [List.mem_singleton] at hkv
      subst hkv
      exact ⟨by decide,
        (by decide : ('\n' : Char) ∉ ("z1" : String).toList)⟩)
  exact ⟨h.1, h.2.1⟩


end AfsCollector
